import Mathlib

/-
Verification development for the gcp-app-store-simulation data generators.

Shallow embedding of the two publisher variants:
  * src/01-data-generation/02_publisher_modulated.py                      (namespace V02)
  * src/01-data-generation/05_publisher_modulated_users_Poisson_throttled.py (namespace V05)

Modelling conventions:
  * Python floats are modelled as exact rationals; the continuous diurnal
    curve, which calls math.cos, is modelled over the reals. Where a property
    hinges on IEEE rounding itself (the modulation-table subscript), the
    binary64 semantics is modelled exactly: roundDouble is round-to-nearest,
    ties-to-even at 53 significand bits, and pyModF is CPython float remainder.
  * Python dicts are association lists (ordered, unique keys in practice);
    dict assignment updates in place or appends, mirroring insertion order.
  * Randomness is passed explicitly: each stdlib draw (random.random,
    random.expovariate, random.randint, random.uniform, random.choice) is one
    field of an input tape, constrained by the documented range of the
    corresponding stdlib primitive.
  * Fallible operations (raising ValueError, KeyError, IndexError) return
    Except values.
-/

namespace AppStore

/-- Python int() truncation toward zero of a rational. -/
def pyInt (q : ℚ) : ℤ := if 0 ≤ q then ⌊q⌋ else ⌈q⌉

/-- Python float modulo a positive modulus: a % b = a - b * floor (a / b). -/
def pyMod (a b : ℚ) : ℚ := a - b * ⌊a / b⌋

/-- Python round(x, 2): nearest multiple of 1/100, ties to the even multiple. -/
def round2 (q : ℚ) : ℚ :=
  let n : ℤ := ⌊q * 100⌋
  let frac : ℚ := q * 100 - n
  (((if frac < 1/2 then n
     else if 1/2 < frac then n + 1
     else if Even n then n else n + 1) : ℤ) : ℚ) / 100

/-- Python random.randint(a, b): a uniform integer in [a, b]; the tape value r
selects the draw as a + (r mod (b - a + 1)). -/
def pyRandint (a b : ℤ) (r : ℕ) : ℤ := a + ((r % (b - a + 1).toNat : ℕ) : ℤ)

/-- Python random.uniform(a, b) realised as a + t * (b - a) for a uniform tape
draw t in [0, 1]. -/
def pyUniform (a b t : ℚ) : ℚ := a + t * (b - a)

/-- Association-list lookup: Python dict read d[k], None when the key is absent. -/
def alookup {α : Type} (m : List (String × α)) (k : String) : Option α :=
  (m.find? (fun p => p.1 == k)).map (fun p => p.2)

/-- Python dict assignment d[k] = v: overwrite the first binding of k in place,
otherwise append at the end (insertion order). -/
def aset {α : Type} : List (String × α) → String → α → List (String × α)
  | [], k, v => [(k, v)]
  | (k0, v0) :: rest, k, v =>
    if k0 = k then (k0, v) :: rest else (k0, v0) :: aset rest k v

/-- Round a rational to an integer: nearest integer, ties to the even one (the
IEEE round-to-nearest-even tie rule). -/
def rne (x : ℚ) : ℤ :=
  if x - ⌊x⌋ < 1/2 then ⌊x⌋
  else if 1/2 < x - ⌊x⌋ then ⌊x⌋ + 1
  else if Even ⌊x⌋ then ⌊x⌋ else ⌊x⌋ + 1

/-- The IEEE binary64 double nearest a rational: round to nearest with ties to
even at 53 significand bits, the scale clamped below at 2 ^ (-1074) so that
subnormal values also round correctly (overflow is not modelled; no value in
this development comes near it). A representable double is a fixed point of
this map. -/
def roundDouble (q : ℚ) : ℚ :=
  if q = 0 then 0
  else (rne (q / 2 ^ max (Int.log 2 |q| - 52) (-1074)) : ℚ) *
    2 ^ max (Int.log 2 |q| - 52) (-1074)

/-- IEEE fmod(a, b) = a - b * trunc(a / b). The fmod of two doubles is exact
(the true remainder of representable values is representable), so no rounding
is applied to the remainder itself. -/
def fmodQ (a b : ℚ) : ℚ := a - b * (pyInt (a / b) : ℚ)

/-- CPython float remainder a % b (float_rem in Objects/floatobject.c): take
fmod(a, b); when the remainder is non-zero with sign opposite to the divisor,
perform one correctly rounded float addition of the divisor; a zero remainder
yields (signed) zero. -/
def pyModF (a b : ℚ) : ℚ :=
  if fmodQ a b = 0 then 0
  else if (0 < b ∧ fmodQ a b < 0) ∨ (b < 0 ∧ 0 < fmodQ a b) then
    roundDouble (fmodQ a b + b)
  else fmodQ a b

/-- Python list subscript index adjustment: a negative index counts from the
end of the list. -/
def pyIndexAdj (n : ℕ) (i : ℤ) : ℤ := if i < 0 then i + n else i

/-- Python list subscript xs[i] with an int index: a negative index counts
from the end; an index out of range raises IndexError, modelled as none. -/
def pySubscript {α : Type} (xs : List α) (i : ℤ) : Option α :=
  if 0 ≤ pyIndexAdj xs.length i then xs[(pyIndexAdj xs.length i).toNat]? else none

end AppStore

namespace V05

/-- HOURLY_MODULATION_FACTORS (lines 45-70): each hour broken into 5 segments,
24 * 5 = 120 factors, pre-sampled from the continuous diurnal curve. -/
def HOURLY_MODULATION_FACTORS : List ℚ := [
  0.272, 0.251, 0.230, 0.210, 0.190,
  0.172, 0.155, 0.138, 0.123, 0.108,
  0.095, 0.083, 0.072, 0.062, 0.054,
  0.047, 0.041, 0.036, 0.033, 0.031,
  0.030, 0.031, 0.033, 0.036, 0.041,
  0.047, 0.054, 0.062, 0.072, 0.083,
  0.095, 0.108, 0.123, 0.138, 0.155,
  0.172, 0.190, 0.210, 0.230, 0.251,
  0.273, 0.295, 0.318, 0.341, 0.365,
  0.389, 0.414, 0.439, 0.464, 0.490,
  0.515, 0.540, 0.566, 0.591, 0.616,
  0.641, 0.665, 0.689, 0.712, 0.735,
  0.758, 0.779, 0.800, 0.820, 0.840,
  0.858, 0.875, 0.892, 0.907, 0.922,
  0.935, 0.947, 0.958, 0.968, 0.976,
  0.983, 0.989, 0.994, 0.997, 0.999,
  1.000, 0.999, 0.997, 0.994, 0.989,
  0.983, 0.976, 0.968, 0.958, 0.947,
  0.935, 0.922, 0.907, 0.892, 0.875,
  0.858, 0.840, 0.820, 0.800, 0.779,
  0.758, 0.735, 0.712, 0.689, 0.665,
  0.641, 0.616, 0.591, 0.566, 0.540,
  0.515, 0.490, 0.464, 0.439, 0.414,
  0.389, 0.365, 0.341, 0.318, 0.295]

/-- The lookup index int((hour % 24) * 5) used by user_daily_activity_pattern. -/
def patternIndex (hour : ℚ) : ℤ := AppStore.pyInt (AppStore.pyMod hour 24 * 5)

/-- user_daily_activity_pattern (lines 92-100): discretized diurnal modulation,
a table read at index int((hour % 24) * 5). -/
def user_daily_activity_pattern (hour : ℚ) : ℚ :=
  HOURLY_MODULATION_FACTORS.getD (patternIndex hour).toNat 0

/-- user_daily_activity_pattern (lines 92-100) under the IEEE binary64
arithmetic the program actually runs: hour % 24 follows CPython float
remainder semantics, the product (hour % 24) * 5 is correctly rounded, int()
truncates toward zero, and the list subscript raises IndexError (none) when
the index is out of range. The rational-arithmetic model
user_daily_activity_pattern above idealises the same code. -/
def user_daily_activity_pattern_float (hour : ℚ) : Option ℚ :=
  AppStore.pySubscript HOURLY_MODULATION_FACTORS
    (AppStore.pyInt (AppStore.roundDouble (AppStore.pyModF hour 24 * 5)))

/-- Errors that the generation pipeline can raise: ValueError from
get_weighted_choice on an empty dict, ValueError raised inside random.choices
when the total of the weights is not positive (documented stdlib behaviour),
KeyError on a country missing from the timezone dict, KeyError on a country
missing from USERS_BY_COUNTRY, IndexError from random.choice on an empty list. -/
inductive GenError
  | emptyDistribution
  | nonPositiveTotal
  | missingTimezone
  | unknownCountry
  | emptyUserList
  deriving DecidableEq, Repr

/-- Sum of the weights of a distribution, as computed by random.choices. -/
def totalWeight (distribution : List (String × ℚ)) : ℚ :=
  (distribution.map (fun p => p.2)).sum

/-- Cumulative-weight selection performed by random.choices via bisect: the
first key whose cumulative weight strictly exceeds the scaled draw; the last
key is the fallback clamp (bisect is called with hi = len - 1). -/
def pickCum : List (String × ℚ) → ℚ → String
  | [], _ => ""
  | [(c, _)], _ => c
  | (c, w) :: rest, x => if x < w then c else pickCum rest (x - w)

/-- get_weighted_choice (lines 123-149): raises ValueError on an empty dict,
otherwise calls random.choices(choices, weights, k=1)[0], which scales one
uniform draw u in [0, 1) by the total weight and selects by cumulative weights,
raising ValueError when the total of the weights is not greater than zero. -/
def get_weighted_choice (distribution : List (String × ℚ)) (u : ℚ) :
    Except GenError String :=
  if distribution.isEmpty then .error .emptyDistribution
  else if totalWeight distribution ≤ 0 then .error .nonPositiveTotal
  else .ok (pickCum distribution (u * totalWeight distribution))

/-- Loop body of generate_time_modulated_weights (lines 114-119): walk the
country distribution, look up each country offset in the timezone dict
(KeyError when absent), modulate the weight by the activity pattern at the
local hour, write it into the modulated dict and accumulate the sum. -/
def gtmwGo (currentHour : ℚ) (tz : List (String × ℚ)) :
    List (String × ℚ) → List (String × ℚ) → ℚ →
    Except GenError (List (String × ℚ) × ℚ)
  | [], acc, s => .ok (acc, s)
  | (country, weight) :: rest, acc, s =>
    match AppStore.alookup tz country with
    | none => .error .missingTimezone
    | some offset =>
      let mw := weight * user_daily_activity_pattern (currentHour + offset)
      gtmwGo currentHour tz rest (AppStore.aset acc country mw) (s + mw)

/-- generate_time_modulated_weights (lines 102-121): rounds the global clock
hour to 2 decimals, then recomputes the modulated weight of every country of
the distribution into the carried modulated dict, returning it with the sum. -/
def generate_time_modulated_weights (globalHour : ℚ)
    (distribution tz modulatedPrior : List (String × ℚ)) :
    Except GenError (List (String × ℚ) × ℚ) :=
  gtmwGo (AppStore.round2 globalHour) tz distribution modulatedPrior 0

end V05

namespace V02

/-- user_daily_activity_pattern (lines 60-65 of the simple variant): the
continuous diurnal curve 0.03 + 0.97 * (1 + cos((hour - 16) * 2 pi / 24)) / 2. -/
noncomputable def user_daily_activity_pattern (hour : ℝ) : ℝ :=
  0.03 + 0.97 * (1 + Real.cos ((hour - 16) * (2 * Real.pi / 24))) / 2

/-- Pacing branch of publish_messages_batch in the simple variant (lines
253-256): when events_per_second is positive, sleep a jittered interval; when
it is 0 no sleep statement runs at all. Returns the sleep applied, if any. -/
def pacingSleep (baseRate randomness jitter : ℚ) : Option ℚ :=
  if 0 < baseRate then
    some (max 0 ((1 / baseRate) * (1 + AppStore.pyUniform (-randomness) randomness jitter)))
  else none

end V02

namespace V05

/-- Pacing branch of publish_messages_batch in the Poisson variant (lines
321-326): when events_per_second is positive, sleep a jittered interval;
otherwise sleep a fixed 0.00225 seconds (the comment caps it at 445 req/sec). -/
def pacingSleep (baseRate randomness jitter : ℚ) : Option ℚ :=
  if 0 < baseRate then
    some (max 0 ((1 / baseRate) * (1 + AppStore.pyUniform (-randomness) randomness jitter)))
  else some 0.00225

/-- The virtual simulation clock: GLOBAL_TIMESTAMP_MICROS and
GLOBAL_TIMESTAMP_HOUR (lines 72-73). -/
structure ClockState where
  micros : ℤ
  hour : ℚ
  deriving DecidableEq, Repr

/-- Clock initialisation in main (lines 454-459): the wall-clock seeded values
are immediately overwritten by the hard-coded resume constants taken from the
last BigQuery record. -/
def initClock (wallMicros : ℤ) (wallHour : ℚ) : ClockState :=
  let seeded : ClockState := { micros := wallMicros, hour := wallHour }
  { seeded with micros := 1760854441420750, hour := 6.233727986111111 }

end V05

namespace V05

/-- The static configuration pieces read by generate_event: the country
distribution and timezone dicts, the modulated dict carried inside
country_infos, and the event-type and device-type distributions. -/
structure Config where
  countryDistribution : List (String × ℚ)
  countryTimezone : List (String × ℚ)
  modulatedPrior : List (String × ℚ)
  eventTypeDistribution : List (String × ℚ)
  deviceTypeDistribution : List (String × ℚ)

/-- One tape of stdlib draws consumed by a single generate_event call, each
field constrained by the documented range of the primitive it stands for. -/
structure GenTape where
  /-- random.expovariate(GLOBAL_RATE_MAXIMUM), a nonnegative gap in seconds. -/
  expDraw : ℚ
  /-- random.random() in [0, 1), compared against the thinning ratio. -/
  uThin : ℚ
  /-- the uniform draw consumed by the country weighted choice. -/
  uCountry : ℚ
  /-- the index draw of random.choice over the country user list. -/
  rUser : ℕ
  /-- the uniform draw consumed by the event-type weighted choice. -/
  uEventType : ℚ
  /-- the uniform draw consumed by the device-type weighted choice. -/
  uDevice : ℚ
  /-- fake.bs(), the generated search phrase. -/
  searchQuery : String
  /-- the draw of random.randint(1, 5) for a review rating. -/
  rRating : ℕ
  /-- the draw of random.randint(100, 999) for an item id. -/
  rItem : ℕ
  /-- the draw of random.uniform(0.99, 99.99) for a price, as t in [0, 1]. -/
  uPrice : ℚ
  /-- get_current_timestamp_micros(), the wall-clock generation timestamp. -/
  wallMicros : ℤ
  /-- str(uuid.uuid4()) for the event id. -/
  eventId : String
  /-- fake.uuid4() for the session id. -/
  sessionId : String
  /-- the draw of random.randint(1000, 9999) for the app id. -/
  rApp : ℕ
  /-- the index draw of random.choice over [iOS, Android]. -/
  rOsPick : ℕ
  /-- the draw of random.randint(12, 15), the OS major version. -/
  rOsMajor : ℕ
  /-- the draw of random.randint(0, 5), the OS minor version. -/
  rOsMinor : ℕ

/-- The event_details payload: an empty JSON object, or the one
event-type-specific shape. -/
inductive EventDetails
  | empty
  | search (query : String)
  | review (rating : ℤ)
  | purchase (itemId : String) (priceUsd : ℚ)
  deriving DecidableEq, Repr

/-- One generated user-interaction event (the dict built at lines 224-236). -/
structure EventRecord where
  generation_timestamp : ℤ
  event_id : String
  event_timestamp : ℤ
  user_id : String
  session_id : String
  event_type : String
  app_id : String
  device_type : String
  os_version : String
  country_code : String
  event_details : EventDetails
  deriving DecidableEq, Repr

/-- The event_details construction (lines 210-217, verbatim identical to lines
143-150 of the simple variant): search gets a search_query, review_submit gets
a rating from randint(1, 5), in_app_purchase gets an item id iap_randint(100,
999) and a price uniform(0.99, 99.99) rounded to 2 decimals, and every other
event type keeps the empty object. -/
def build_event_details (eventType : String) (t : GenTape) : EventDetails :=
  if eventType = "search" then .search t.searchQuery
  else if eventType = "review_submit" then .review (AppStore.pyRandint 1 5 t.rRating)
  else if eventType = "in_app_purchase" then
    .purchase ("iap_" ++ toString (AppStore.pyRandint 100 999 t.rItem))
      (AppStore.round2 (AppStore.pyUniform 0.99 99.99 t.uPrice))
  else .empty

/-- random.choice over a list, the tape value r selecting index r mod length;
IndexError on an empty list. -/
def randomChoice (l : List String) (r : ℕ) : Except GenError String :=
  match l with
  | [] => .error .emptyUserList
  | x :: xs => .ok ((x :: xs).getD (r % (x :: xs).length) x)

/-- Clock advance of one generate_event call (lines 188-190): the micros
counter advances by int(dt * 1_000_000) and the hour counter by dt / 3600. -/
def advanceClock (clock : ClockState) (dt : ℚ) : ClockState :=
  { micros := clock.micros + AppStore.pyInt (dt * 1000000)
    hour := clock.hour + dt / 3600 }

/-- The OS version string of line 233. -/
def osVersionString (t : GenTape) : String :=
  (if t.rOsPick % 2 = 0 then "iOS" else "Android") ++ " " ++
    toString (AppStore.pyRandint 12 15 t.rOsMajor) ++ "." ++
    toString (AppStore.pyRandint 0 5 t.rOsMinor)

/-- The accepted-arrival tail of generate_event (lines 202-237): pick the
country from the modulated weights, a user from that country pool, the event
type, the details, the device type, and assemble the record. -/
def sampleAccepted (cfg : Config) (usersByCountry : List (String × List String))
    (clock2 : ClockState) (modulated : List (String × ℚ)) (t : GenTape) :
    Except GenError EventRecord :=
  match get_weighted_choice modulated t.uCountry with
  | .error e => .error e
  | .ok countryCode =>
    match AppStore.alookup usersByCountry countryCode with
    | none => .error .unknownCountry
    | some users =>
      match randomChoice users t.rUser with
      | .error e => .error e
      | .ok userId =>
        match get_weighted_choice cfg.eventTypeDistribution t.uEventType with
        | .error e => .error e
        | .ok eventType =>
          match get_weighted_choice cfg.deviceTypeDistribution t.uDevice with
          | .error e => .error e
          | .ok deviceType =>
            .ok { generation_timestamp := t.wallMicros
                  event_id := t.eventId
                  event_timestamp := clock2.micros
                  user_id := userId
                  session_id := t.sessionId
                  event_type := eventType
                  app_id := "app_" ++ toString (AppStore.pyRandint 1000 9999 t.rApp)
                  device_type := deviceType
                  os_version := osVersionString t
                  country_code := countryCode
                  event_details := build_event_details eventType t }

/-- generate_event of the Poisson variant (lines 151-237): draw the
exponential gap, advance the virtual clock, recompute the modulated weights at
the new (rounded) clock hour, thin the arrival against the ratio
modulated_sum / GLOBAL_RATE_MAXIMUM returning None on rejection, and on
acceptance sample the country, user and remaining attributes. The advanced
clock is returned in every outcome because the globals mutate before any
later exception can be raised. -/
def generate_event (cfg : Config) (usersByCountry : List (String × List String))
    (rateMax : ℚ) (clock : ClockState) (t : GenTape) :
    ClockState × Except GenError (Option EventRecord) :=
  match generate_time_modulated_weights (advanceClock clock t.expDraw).hour
      cfg.countryDistribution cfg.countryTimezone cfg.modulatedPrior with
  | .error e => (advanceClock clock t.expDraw, .error e)
  | .ok (modulated, modulatedSum) =>
    if modulatedSum / rateMax < t.uThin then (advanceClock clock t.expDraw, .ok none)
    else
      match sampleAccepted cfg usersByCountry (advanceClock clock t.expDraw) modulated t with
      | .error e => (advanceClock clock t.expDraw, .error e)
      | .ok ev => (advanceClock clock t.expDraw, .ok (some ev))

/-- The per-country user pools: the values of USERS_BY_COUNTRY, a list of
fake.uuid4() strings produced by an external supply. -/
def mkUsers (supply : String → ℕ → String) (country : String) (n : ℕ) :
    List String :=
  (List.range n).map (supply country)

/-- Result of the startup loop of main: the surviving country distribution,
USERS_BY_COUNTRY, and GLOBAL_RATE_MAXIMUM. -/
structure InitResult where
  distribution : List (String × ℚ)
  usersByCountry : List (String × List String)
  rateMax : ℚ

/-- user_interactions_per_second (line 437). -/
def interactionsPerSecond (perDay : ℚ) : ℚ := perDay / (24 * 60 * 60)

/-- Startup loop of main (lines 441-451): for each country compute
n = int(weight * users_population_fraction / gke_replicas_factor); when n is 0
delete the country from the distribution and continue, otherwise keep it,
build its n-user pool and add n * user_interactions_per_second to
GLOBAL_RATE_MAXIMUM. -/
def initUsersByCountry (supply : String → ℕ → String)
    (fraction replicas perSecond : ℚ) :
    List (String × ℚ) → InitResult
  | [] => { distribution := [], usersByCountry := [], rateMax := 0 }
  | (country, weight) :: rest =>
    let r := initUsersByCountry supply fraction replicas perSecond rest
    let n : ℤ := AppStore.pyInt (weight * fraction / replicas)
    if n = 0 then r
    else
      { distribution := (country, weight) :: r.distribution
        usersByCountry := (country, mkUsers supply country n.toNat) :: r.usersByCountry
        rateMax := (n : ℚ) * perSecond + r.rateMax }

end V05

namespace AppStore

/-- Python float modulo over the reals, for real-valued hour arguments. -/
noncomputable def pyModR (a b : ℝ) : ℝ := a - b * ⌊a / b⌋

/-- Python int() truncation toward zero over the reals. -/
noncomputable def pyIntR (x : ℝ) : ℤ := if 0 ≤ x then ⌊x⌋ else ⌈x⌉

end AppStore

namespace V05

/-- The discretized modulator of lines 92-100 read at a real-valued hour: the
same index formula int((hour % 24) * 5) into HOURLY_MODULATION_FACTORS, used
to compare the table against the continuous curve it discretizes. -/
noncomputable def user_daily_activity_pattern_real (hour : ℝ) : ℝ :=
  ((HOURLY_MODULATION_FACTORS.getD
    (AppStore.pyIntR (AppStore.pyModR hour 24 * 5)).toNat 0 : ℚ) : ℝ)

end V05

namespace Diurnal

/-- Rational lower bound on pi, from Real.pi_gt_d6. -/
def piQLo : ℚ := 3.141592

/-- Rational upper bound on pi, from Real.pi_lt_d6. -/
def piQHi : ℚ := 3.141593

/-- Rational lower bound on sin x valid when a ≤ x ≤ b, 0 ≤ a and b ≤ 1,
from the cubic Taylor polynomial with the remainder bound 5 |x|^4 / 96. -/
def sinPolyLo (a b : ℚ) : ℚ := a - a^3/6 - 5*b^4/96

/-- Rational upper bound on sin x valid when x ≤ b and |x| ≤ 1, 0 ≤ b ≤ 1. -/
def sinPolyHi (b : ℚ) : ℚ := b - b^3/6 + 5*b^4/96

/-- Rational lower bound on j * pi / 120, the half angle of j * pi / 60. -/
def jLoHalf (j : ℕ) : ℚ := j * piQLo / 120

/-- Rational upper bound on j * pi / 120. -/
def jHiHalf (j : ℕ) : ℚ := j * piQHi / 120

/-- Rational lower bound on cos (j * pi / 60) for j ≤ 80, by quadrant
reduction: half-angle identity for j ≤ 19, complement to sin for 20 ≤ j ≤ 40,
reflection at pi for 41 ≤ j ≤ 79, and exact values at j = 60 and j = 80. -/
def cosLo (j : ℕ) : ℚ :=
  if j ≤ 19 then 1 - 2 * (sinPolyHi (jHiHalf j))^2
  else if j ≤ 30 then sinPolyLo ((30 - j : ℕ) * piQLo / 60) ((30 - j : ℕ) * piQHi / 60)
  else if j ≤ 40 then -(sinPolyHi ((j - 30 : ℕ) * piQHi / 60))
  else if j ≤ 59 then -(1 - 2 * (sinPolyLo (jLoHalf (60 - j)) (jHiHalf (60 - j)))^2)
  else if j = 60 then -1
  else if j ≤ 79 then -(1 - 2 * (sinPolyLo (jLoHalf (j - 60)) (jHiHalf (j - 60)))^2)
  else -(1/2)

/-- Rational upper bound on cos (j * pi / 60) for j ≤ 80. -/
def cosHi (j : ℕ) : ℚ :=
  if j ≤ 19 then 1 - 2 * (sinPolyLo (jLoHalf j) (jHiHalf j))^2
  else if j ≤ 30 then sinPolyHi ((30 - j : ℕ) * piQHi / 60)
  else if j ≤ 40 then -(sinPolyLo ((j - 30 : ℕ) * piQLo / 60) ((j - 30 : ℕ) * piQHi / 60))
  else if j ≤ 59 then -(1 - 2 * (sinPolyHi (jHiHalf (60 - j)))^2)
  else if j = 60 then -1
  else if j ≤ 79 then -(1 - 2 * (sinPolyHi (jHiHalf (j - 60)))^2)
  else -(1/2)

/-- Table entry k of the discretized modulator, 0 out of range. -/
def tableEntry (k : ℕ) : ℚ := V05.HOURLY_MODULATION_FACTORS.getD k 0

/-- Distance of the bucket index k from the peak index 80, so that the bucket
anchor angle is plus or minus jOf k * pi / 60. -/
def jOf (k : ℕ) : ℕ := if k ≤ 80 then 80 - k else k - 80

/-- Integer numerator of sinPolyLo (na/d) (nb/d) over the denominator 96 d^4. -/
def sinLoN (na nb d : ℤ) : ℤ := 96*na*d^3 - 16*na^3*d - 5*nb^4

/-- Integer numerator of sinPolyHi (nb/d) over the denominator 96 d^4. -/
def sinHiN (nb d : ℤ) : ℤ := 96*nb*d^3 - 16*nb^3*d + 5*nb^4

/-- The common denominator 96 d^4 of the scaled sine bounds. -/
def sinDen (d : ℤ) : ℤ := 96*d^4

/-- Integer numerator and denominator of cosLo j, for kernel computation. -/
def cosLoZ (j : ℕ) : ℤ × ℤ :=
  if j ≤ 19 then
    ((sinDen 120000000)^2 - 2*(sinHiN (j*3141593) 120000000)^2, (sinDen 120000000)^2)
  else if j ≤ 30 then
    (sinLoN ((30 - j : ℕ)*3141592) ((30 - j : ℕ)*3141593) 60000000, sinDen 60000000)
  else if j ≤ 40 then
    (-(sinHiN ((j - 30 : ℕ)*3141593) 60000000), sinDen 60000000)
  else if j ≤ 59 then
    (2*(sinLoN ((60 - j : ℕ)*3141592) ((60 - j : ℕ)*3141593) 120000000)^2 - (sinDen 120000000)^2,
      (sinDen 120000000)^2)
  else if j = 60 then (-1, 1)
  else if j ≤ 79 then
    (2*(sinLoN ((j - 60 : ℕ)*3141592) ((j - 60 : ℕ)*3141593) 120000000)^2 - (sinDen 120000000)^2,
      (sinDen 120000000)^2)
  else (-1, 2)

/-- Integer numerator and denominator of cosHi j, for kernel computation. -/
def cosHiZ (j : ℕ) : ℤ × ℤ :=
  if j ≤ 19 then
    ((sinDen 120000000)^2 - 2*(sinLoN (j*3141592) (j*3141593) 120000000)^2, (sinDen 120000000)^2)
  else if j ≤ 30 then
    (sinHiN ((30 - j : ℕ)*3141593) 60000000, sinDen 60000000)
  else if j ≤ 40 then
    (-(sinLoN ((j - 30 : ℕ)*3141592) ((j - 30 : ℕ)*3141593) 60000000), sinDen 60000000)
  else if j ≤ 59 then
    (2*(sinHiN ((60 - j : ℕ)*3141593) 120000000)^2 - (sinDen 120000000)^2, (sinDen 120000000)^2)
  else if j = 60 then (-1, 1)
  else if j ≤ 79 then
    (2*(sinHiN ((j - 60 : ℕ)*3141593) 120000000)^2 - (sinDen 120000000)^2, (sinDen 120000000)^2)
  else (-1, 2)

/-- The modulation table scaled by 1000, as integers for kernel computation. -/
def tableMilli : List ℤ := [
  272, 251, 230, 210, 190, 172, 155, 138, 123, 108,
  95, 83, 72, 62, 54, 47, 41, 36, 33, 31,
  30, 31, 33, 36, 41, 47, 54, 62, 72, 83,
  95, 108, 123, 138, 155, 172, 190, 210, 230, 251,
  273, 295, 318, 341, 365, 389, 414, 439, 464, 490,
  515, 540, 566, 591, 616, 641, 665, 689, 712, 735,
  758, 779, 800, 820, 840, 858, 875, 892, 907, 922,
  935, 947, 958, 968, 976, 983, 989, 994, 997, 999,
  1000, 999, 997, 994, 989, 983, 976, 968, 958, 947,
  935, 922, 907, 892, 875, 858, 840, 820, 800, 779,
  758, 735, 712, 689, 665, 641, 616, 591, 566, 540,
  515, 490, 464, 439, 414, 389, 365, 341, 318, 295]

/-- Cross-multiplied integer form of the two per-bucket window checks
tableEntry k - 0.0046 ≤ 0.03 + 0.485 (1 + cosLo (jOf k)) and
0.03 + 0.485 (1 + cosHi (jOf k)) ≤ tableEntry k + 0.0046. -/
def checkZ (k : ℕ) : Bool :=
  let mk := tableMilli.getD k 0
  let pL := cosLoZ (jOf k)
  let pH := cosHiZ (jOf k)
  decide ((10*mk - 5196) * (200 * pL.2) ≤ 97 * pL.1 * 10000) &&
  decide (97 * pH.1 * 10000 ≤ (10*mk - 5104) * (200 * pH.2))

end Diurnal

namespace Diurnal

/-- Half-angle form of the cosine, cos x = 1 - 2 sin (x/2) ^ 2. -/
lemma cos_via_sin_half (x : ℝ) : Real.cos x = 1 - 2 * Real.sin (x/2)^2 := by
  have h := Real.sin_sq_add_cos_sq (x/2)
  have h2 := Real.cos_two_mul' (x/2)
  rw [show 2*(x/2) = x by ring] at h2
  linarith

/-- Soundness of the rational sine window on [0, 1]. -/
lemma sin_mem (x : ℝ) (a b : ℚ) (hax : (a:ℝ) ≤ x) (hxb : x ≤ (b:ℝ))
    (h0 : 0 ≤ a) (hb1 : b ≤ 1) :
    ((sinPolyLo a b : ℚ):ℝ) ≤ Real.sin x ∧ Real.sin x ≤ ((sinPolyHi b : ℚ):ℝ) := by
  have h0R : (0:ℝ) ≤ (a:ℚ) := by exact_mod_cast h0
  have hb1R : ((b:ℚ):ℝ) ≤ 1 := by exact_mod_cast hb1
  have hx0 : (0:ℝ) ≤ x := le_trans h0R hax
  have hx1 : |x| ≤ 1 := by rw [abs_le]; constructor <;> linarith
  have hs := Real.sin_bound hx1
  rw [abs_le] at hs
  have hxx : |x| = x := abs_of_nonneg hx0
  rw [hxx] at hs
  have hx1' : x ≤ 1 := by linarith
  have hx4 : x^4 ≤ ((b:ℚ):ℝ)^4 := pow_le_pow_left₀ hx0 hxb 4
  have keylo : (0:ℝ) ≤ (x - (a:ℚ)) * (6 - (((a:ℚ):ℝ)^2 + ((a:ℚ):ℝ)*x + x^2)) :=
    mul_nonneg (by linarith) (by nlinarith)
  have keyhi : (0:ℝ) ≤ (((b:ℚ):ℝ) - x) * (6 - (((b:ℚ):ℝ)^2 + ((b:ℚ):ℝ)*x + x^2)) :=
    mul_nonneg (by linarith) (by nlinarith)
  have hmlo : ((a:ℚ):ℝ) - ((a:ℚ):ℝ)^3/6 ≤ x - x^3/6 := by nlinarith [keylo]
  have hmhi : x - x^3/6 ≤ ((b:ℚ):ℝ) - ((b:ℚ):ℝ)^3/6 := by nlinarith [keyhi]
  constructor
  · push_cast [sinPolyLo]; nlinarith
  · push_cast [sinPolyHi]; nlinarith

/-- Soundness of the rational cosine window through the half-angle identity. -/
lemma cos_half_mem (x : ℝ) (a b : ℚ) (ha : (a:ℝ) ≤ x/2) (hb : x/2 ≤ (b:ℝ))
    (h0 : 0 ≤ a) (hb1 : b ≤ 1) (hLnn : 0 ≤ sinPolyLo a b) :
    ((1 - 2*(sinPolyHi b)^2 : ℚ):ℝ) ≤ Real.cos x ∧
    Real.cos x ≤ ((1 - 2*(sinPolyLo a b)^2 : ℚ):ℝ) := by
  obtain ⟨hl, hu⟩ := sin_mem (x/2) a b ha hb h0 hb1
  have hc := cos_via_sin_half x
  have hLnnR : (0:ℝ) ≤ ((sinPolyLo a b : ℚ):ℝ) := by exact_mod_cast hLnn
  constructor
  · push_cast
    push_cast at hl hu hLnnR
    nlinarith [sq_nonneg (Real.sin (x/2))]
  · push_cast
    push_cast at hl hu hLnnR
    nlinarith [sq_nonneg (Real.sin (x/2))]

/-- Cosine window for angles j pi / 60 in the first third of a quadrant. -/
lemma cosJ_half (j : ℕ) (hj : j ≤ 19) :
    ((1 - 2*(sinPolyHi (jHiHalf j))^2 : ℚ):ℝ) ≤ Real.cos ((j:ℝ)*Real.pi/60) ∧
    Real.cos ((j:ℝ)*Real.pi/60) ≤ ((1 - 2*(sinPolyLo (jLoHalf j) (jHiHalf j))^2 : ℚ):ℝ) := by
  have hjR : (0:ℝ) ≤ (j:ℝ) := Nat.cast_nonneg j
  have hjq : ((j:ℚ)) ≤ 19 := by exact_mod_cast hj
  have hpiL := Real.pi_gt_d6
  have hpiH := Real.pi_lt_d6
  have ha : ((jLoHalf j : ℚ):ℝ) ≤ ((j:ℝ)*Real.pi/60)/2 := by
    unfold jLoHalf piQLo
    push_cast
    nlinarith [mul_nonneg hjR (sub_nonneg.2 (le_of_lt hpiL))]
  have hb : ((j:ℝ)*Real.pi/60)/2 ≤ ((jHiHalf j : ℚ):ℝ) := by
    unfold jHiHalf piQHi
    push_cast
    nlinarith [mul_nonneg hjR (sub_nonneg.2 (le_of_lt hpiH))]
  have h0 : 0 ≤ jLoHalf j := by
    unfold jLoHalf piQLo
    positivity
  have hb1 : jHiHalf j ≤ 1 := by
    unfold jHiHalf piQHi
    nlinarith [hjq, Nat.cast_nonneg (α := ℚ) j]
  have hLnn : 0 ≤ sinPolyLo (jLoHalf j) (jHiHalf j) := by
    interval_cases j <;> norm_num [sinPolyLo, jLoHalf, jHiHalf, piQLo, piQHi]
  exact cos_half_mem ((j:ℝ)*Real.pi/60) (jLoHalf j) (jHiHalf j) ha hb h0 hb1 hLnn

/-- Sine window for angles i pi / 60 with i ≤ 10. -/
lemma sinJ_bounds (i : ℕ) (hi : i ≤ 10) :
    ((sinPolyLo (i * piQLo / 60) (i * piQHi / 60) : ℚ):ℝ) ≤ Real.sin ((i:ℝ)*Real.pi/60) ∧
    Real.sin ((i:ℝ)*Real.pi/60) ≤ ((sinPolyHi (i * piQHi / 60) : ℚ):ℝ) := by
  have hiR : (0:ℝ) ≤ (i:ℝ) := Nat.cast_nonneg i
  have hiq : ((i:ℚ)) ≤ 10 := by exact_mod_cast hi
  have hpiL := Real.pi_gt_d6
  have hpiH := Real.pi_lt_d6
  apply sin_mem
  · unfold piQLo
    push_cast
    nlinarith [mul_nonneg hiR (sub_nonneg.2 (le_of_lt hpiL))]
  · unfold piQHi
    push_cast
    nlinarith [mul_nonneg hiR (sub_nonneg.2 (le_of_lt hpiH))]
  · unfold piQLo
    positivity
  · unfold piQHi
    nlinarith [hiq, Nat.cast_nonneg (α := ℚ) i]

/-- Soundness of the rational cosine window cosLo, cosHi at every multiple of
pi / 60 up to 4 pi / 3. -/
theorem cosJ_correct (j : ℕ) (hj : j ≤ 80) :
    ((cosLo j : ℚ):ℝ) ≤ Real.cos ((j:ℝ)*Real.pi/60) ∧
    Real.cos ((j:ℝ)*Real.pi/60) ≤ ((cosHi j : ℚ):ℝ) := by
  by_cases h1 : j ≤ 19
  · simp only [cosLo, cosHi, if_pos h1]
    exact cosJ_half j h1
  by_cases h2 : j ≤ 30
  · simp only [cosLo, cosHi, if_neg h1, if_pos h2]
    have hx : (j:ℝ)*Real.pi/60 = Real.pi/2 - ((30 - j : ℕ):ℝ)*Real.pi/60 := by
      rw [Nat.cast_sub h2]
      push_cast
      ring
    rw [hx, Real.cos_pi_div_two_sub]
    exact sinJ_bounds (30 - j) (by omega)
  by_cases h3 : j ≤ 40
  · simp only [cosLo, cosHi, if_neg h1, if_neg h2, if_pos h3]
    have hx : (j:ℝ)*Real.pi/60 = ((j - 30 : ℕ):ℝ)*Real.pi/60 + Real.pi/2 := by
      rw [Nat.cast_sub (by omega : 30 ≤ j)]
      push_cast
      ring
    rw [hx, Real.cos_add_pi_div_two]
    obtain ⟨hl, hu⟩ := sinJ_bounds (j - 30) (by omega)
    constructor
    · push_cast at hl hu ⊢
      linarith
    · push_cast at hl hu ⊢
      linarith
  by_cases h4 : j ≤ 59
  · simp only [cosLo, cosHi, if_neg h1, if_neg h2, if_neg h3, if_pos h4]
    have hx : (j:ℝ)*Real.pi/60 = Real.pi - ((60 - j : ℕ):ℝ)*Real.pi/60 := by
      rw [Nat.cast_sub (by omega : j ≤ 60)]
      push_cast
      ring
    rw [hx, Real.cos_pi_sub]
    obtain ⟨hl, hu⟩ := cosJ_half (60 - j) (by omega)
    constructor
    · push_cast at hl hu ⊢
      linarith
    · push_cast at hl hu ⊢
      linarith
  by_cases h5 : j = 60
  · subst h5
    have hx : ((60:ℕ):ℝ)*Real.pi/60 = Real.pi := by push_cast; ring
    rw [hx, Real.cos_pi]
    norm_num [cosLo, cosHi]
  by_cases h6 : j ≤ 79
  · simp only [cosLo, cosHi, if_neg h1, if_neg h2, if_neg h3, if_neg h4, if_neg h5, if_pos h6]
    have hx : (j:ℝ)*Real.pi/60 = ((j - 60 : ℕ):ℝ)*Real.pi/60 + Real.pi := by
      rw [Nat.cast_sub (by omega : 60 ≤ j)]
      push_cast
      ring
    rw [hx, Real.cos_add_pi]
    obtain ⟨hl, hu⟩ := cosJ_half (j - 60) (by omega)
    constructor
    · push_cast at hl hu ⊢
      linarith
    · push_cast at hl hu ⊢
      linarith
  · have h80 : j = 80 := by omega
    subst h80
    simp only [cosLo, cosHi, if_neg h1, if_neg h2, if_neg h3, if_neg h4, if_neg h5, if_neg h6]
    have hx : ((80:ℕ):ℝ)*Real.pi/60 = Real.pi/3 + Real.pi := by
      push_cast
      ring
    rw [hx, Real.cos_add_pi, Real.cos_pi_div_three]
    norm_num

end Diurnal

namespace Diurnal

/-- All 240 cross-multiplied integer window checks hold, by kernel computation. -/
theorem checkZ_all : ((List.range 120).all checkZ) = true := by decide

/-- The denominator 96 d^4 is positive for positive d. -/
lemma sinDen_pos (d : ℤ) (hd : 0 < d) : 0 < sinDen d := by
  unfold sinDen
  positivity

/-- The scaled integer numerator sinLoN matches sinPolyLo. -/
lemma sinLoN_div (na nb d : ℤ) (hd : 0 < d) :
    ((sinLoN na nb d : ℤ):ℚ) / ((sinDen d : ℤ):ℚ) =
      sinPolyLo ((na:ℚ)/(d:ℚ)) ((nb:ℚ)/(d:ℚ)) := by
  have hd0 : ((d:ℤ):ℚ) ≠ 0 := by exact_mod_cast hd.ne'
  unfold sinLoN sinDen sinPolyLo
  push_cast
  field_simp
  ring

/-- The scaled integer numerator sinHiN matches sinPolyHi. -/
lemma sinHiN_div (nb d : ℤ) (hd : 0 < d) :
    ((sinHiN nb d : ℤ):ℚ) / ((sinDen d : ℤ):ℚ) = sinPolyHi ((nb:ℚ)/(d:ℚ)) := by
  have hd0 : ((d:ℤ):ℚ) ≠ 0 := by exact_mod_cast hd.ne'
  unfold sinHiN sinDen sinPolyHi
  push_cast
  field_simp
  ring

/-- The scaled pair for the lower half-angle cosine bound. -/
lemma half_pair_lo (nb d : ℤ) (hd : 0 < d) :
    (((sinDen d)^2 - 2*(sinHiN nb d)^2 : ℤ):ℚ) / (((sinDen d)^2 : ℤ):ℚ) =
      1 - 2*(sinPolyHi ((nb:ℚ)/(d:ℚ)))^2 := by
  have hD : ((sinDen d : ℤ):ℚ) ≠ 0 := by exact_mod_cast (sinDen_pos d hd).ne'
  have hN : ((sinHiN nb d : ℤ):ℚ) = sinPolyHi ((nb:ℚ)/(d:ℚ)) * ((sinDen d : ℤ):ℚ) :=
    (div_eq_iff hD).1 (sinHiN_div nb d hd)
  push_cast
  push_cast at hN
  rw [hN]
  field_simp
  ring

/-- The scaled pair for the upper half-angle cosine bound. -/
lemma half_pair_hi (na nb d : ℤ) (hd : 0 < d) :
    (((sinDen d)^2 - 2*(sinLoN na nb d)^2 : ℤ):ℚ) / (((sinDen d)^2 : ℤ):ℚ) =
      1 - 2*(sinPolyLo ((na:ℚ)/(d:ℚ)) ((nb:ℚ)/(d:ℚ)))^2 := by
  have hD : ((sinDen d : ℤ):ℚ) ≠ 0 := by exact_mod_cast (sinDen_pos d hd).ne'
  have hN : ((sinLoN na nb d : ℤ):ℚ) =
      sinPolyLo ((na:ℚ)/(d:ℚ)) ((nb:ℚ)/(d:ℚ)) * ((sinDen d : ℤ):ℚ) :=
    (div_eq_iff hD).1 (sinLoN_div na nb d hd)
  push_cast
  push_cast at hN
  rw [hN]
  field_simp
  ring

/-- The scaled pair for the negated lower half-angle cosine bound. -/
lemma half_pair_lo_neg (na nb d : ℤ) (hd : 0 < d) :
    ((2*(sinLoN na nb d)^2 - (sinDen d)^2 : ℤ):ℚ) / (((sinDen d)^2 : ℤ):ℚ) =
      -(1 - 2*(sinPolyLo ((na:ℚ)/(d:ℚ)) ((nb:ℚ)/(d:ℚ)))^2) := by
  have h := half_pair_hi na nb d hd
  have hD : (((sinDen d)^2 : ℤ):ℚ) ≠ 0 := by
    have := (sinDen_pos d hd).ne'
    positivity
  rw [show ((2*(sinLoN na nb d)^2 - (sinDen d)^2 : ℤ):ℚ) =
    -(((sinDen d)^2 - 2*(sinLoN na nb d)^2 : ℤ):ℚ) from by push_cast; ring, neg_div, h]

/-- The scaled pair for the negated upper half-angle cosine bound. -/
lemma half_pair_hi_neg (nb d : ℤ) (hd : 0 < d) :
    ((2*(sinHiN nb d)^2 - (sinDen d)^2 : ℤ):ℚ) / (((sinDen d)^2 : ℤ):ℚ) =
      -(1 - 2*(sinPolyHi ((nb:ℚ)/(d:ℚ)))^2) := by
  have h := half_pair_lo nb d hd
  rw [show ((2*(sinHiN nb d)^2 - (sinDen d)^2 : ℤ):ℚ) =
    -(((sinDen d)^2 - 2*(sinHiN nb d)^2 : ℤ):ℚ) from by push_cast; ring, neg_div, h]

/-- Argument match at denominator 120000000 against jLoHalf. -/
lemma argLo120 (i : ℕ) : (((i:ℤ)*3141592 : ℤ):ℚ)/((120000000:ℤ):ℚ) = jLoHalf i := by
  unfold jLoHalf piQLo
  push_cast
  ring

/-- Argument match at denominator 120000000 against jHiHalf. -/
lemma argHi120 (i : ℕ) : (((i:ℤ)*3141593 : ℤ):ℚ)/((120000000:ℤ):ℚ) = jHiHalf i := by
  unfold jHiHalf piQHi
  push_cast
  ring

/-- Argument match at denominator 60000000 against the sin-path low angle. -/
lemma argLo60 (i : ℕ) : (((i:ℤ)*3141592 : ℤ):ℚ)/((60000000:ℤ):ℚ) = i * piQLo / 60 := by
  unfold piQLo
  push_cast
  ring

/-- Argument match at denominator 60000000 against the sin-path high angle. -/
lemma argHi60 (i : ℕ) : (((i:ℤ)*3141593 : ℤ):ℚ)/((60000000:ℤ):ℚ) = i * piQHi / 60 := by
  unfold piQHi
  push_cast
  ring

end Diurnal

namespace Diurnal

/-- The integer pair cosLoZ j evaluates to cosLo j, with positive denominator. -/
lemma cosLoZ_eq (j : ℕ) :
    (((cosLoZ j).1 : ℤ):ℚ) / (((cosLoZ j).2 : ℤ):ℚ) = cosLo j ∧ 0 < (cosLoZ j).2 := by
  have hd120 : (0:ℤ) < 120000000 := by norm_num
  have hd60 : (0:ℤ) < 60000000 := by norm_num
  have hsq120 : (0:ℤ) < (sinDen 120000000)^2 := by
    have := sinDen_pos 120000000 hd120
    positivity
  have hs60 := sinDen_pos 60000000 hd60
  by_cases h1 : j ≤ 19
  · simp only [cosLoZ, cosLo, if_pos h1]
    exact ⟨by rw [half_pair_lo _ _ hd120, argHi120], hsq120⟩
  by_cases h2 : j ≤ 30
  · simp only [cosLoZ, cosLo, if_neg h1, if_pos h2]
    exact ⟨by rw [sinLoN_div _ _ _ hd60, argLo60, argHi60], hs60⟩
  by_cases h3 : j ≤ 40
  · simp only [cosLoZ, cosLo, if_neg h1, if_neg h2, if_pos h3]
    refine ⟨?_, hs60⟩
    rw [show ((-(sinHiN ((j - 30 : ℕ)*3141593) 60000000) : ℤ):ℚ) =
      -((sinHiN ((j - 30 : ℕ)*3141593) 60000000 : ℤ):ℚ) from by push_cast; ring,
      neg_div, sinHiN_div _ _ hd60, argHi60]
  by_cases h4 : j ≤ 59
  · simp only [cosLoZ, cosLo, if_neg h1, if_neg h2, if_neg h3, if_pos h4]
    exact ⟨by rw [half_pair_lo_neg _ _ _ hd120, argLo120, argHi120], hsq120⟩
  by_cases h5 : j = 60
  · subst h5
    simp only [cosLoZ, cosLo]
    norm_num
  by_cases h6 : j ≤ 79
  · simp only [cosLoZ, cosLo, if_neg h1, if_neg h2, if_neg h3, if_neg h4, if_neg h5, if_pos h6]
    exact ⟨by rw [half_pair_lo_neg _ _ _ hd120, argLo120, argHi120], hsq120⟩
  · simp only [cosLoZ, cosLo, if_neg h1, if_neg h2, if_neg h3, if_neg h4, if_neg h5, if_neg h6]
    norm_num

/-- The integer pair cosHiZ j evaluates to cosHi j, with positive denominator. -/
lemma cosHiZ_eq (j : ℕ) :
    (((cosHiZ j).1 : ℤ):ℚ) / (((cosHiZ j).2 : ℤ):ℚ) = cosHi j ∧ 0 < (cosHiZ j).2 := by
  have hd120 : (0:ℤ) < 120000000 := by norm_num
  have hd60 : (0:ℤ) < 60000000 := by norm_num
  have hsq120 : (0:ℤ) < (sinDen 120000000)^2 := by
    have := sinDen_pos 120000000 hd120
    positivity
  have hs60 := sinDen_pos 60000000 hd60
  by_cases h1 : j ≤ 19
  · simp only [cosHiZ, cosHi, if_pos h1]
    exact ⟨by rw [half_pair_hi _ _ _ hd120, argLo120, argHi120], hsq120⟩
  by_cases h2 : j ≤ 30
  · simp only [cosHiZ, cosHi, if_neg h1, if_pos h2]
    exact ⟨by rw [sinHiN_div _ _ hd60, argHi60], hs60⟩
  by_cases h3 : j ≤ 40
  · simp only [cosHiZ, cosHi, if_neg h1, if_neg h2, if_pos h3]
    refine ⟨?_, hs60⟩
    rw [show ((-(sinLoN ((j - 30 : ℕ)*3141592) ((j - 30 : ℕ)*3141593) 60000000) : ℤ):ℚ) =
      -((sinLoN ((j - 30 : ℕ)*3141592) ((j - 30 : ℕ)*3141593) 60000000 : ℤ):ℚ) from by
        push_cast; ring,
      neg_div, sinLoN_div _ _ _ hd60, argLo60, argHi60]
  by_cases h4 : j ≤ 59
  · simp only [cosHiZ, cosHi, if_neg h1, if_neg h2, if_neg h3, if_pos h4]
    exact ⟨by rw [half_pair_hi_neg _ _ hd120, argHi120], hsq120⟩
  by_cases h5 : j = 60
  · subst h5
    simp only [cosHiZ, cosHi]
    norm_num
  by_cases h6 : j ≤ 79
  · simp only [cosHiZ, cosHi, if_neg h1, if_neg h2, if_neg h3, if_neg h4, if_neg h5, if_pos h6]
    exact ⟨by rw [half_pair_hi_neg _ _ hd120, argHi120], hsq120⟩
  · simp only [cosHiZ, cosHi, if_neg h1, if_neg h2, if_neg h3, if_neg h4, if_neg h5, if_neg h6]
    norm_num

end Diurnal

namespace Diurnal

/-- The rational modulation table is the integer table scaled by 1000. -/
lemma table_eq_map :
    V05.HOURLY_MODULATION_FACTORS = tableMilli.map (fun n => ((n:ℤ):ℚ)/1000) := by
  norm_num [V05.HOURLY_MODULATION_FACTORS, tableMilli]

/-- Table entries below index 120 are the scaled integer entries. -/
lemma tableEntry_eq (k : ℕ) (hk : k < 120) :
    tableEntry k = ((tableMilli.getD k 0 : ℤ):ℚ)/1000 := by
  have hlen : tableMilli.length = 120 := by rfl
  have hk' : k < tableMilli.length := by omega
  have hk2 : k < (tableMilli.map (fun n => ((n:ℤ):ℚ)/1000)).length := by
    simpa using hk'
  rw [tableEntry, table_eq_map, List.getD_eq_getElem?_getD, List.getD_eq_getElem?_getD,
    List.getElem?_eq_getElem hk2, List.getElem?_eq_getElem hk', List.getElem_map]
  rfl

/-- The per-bucket window checks in rational form: every table entry is within
0.0046 of 0.03 + 0.485 (1 + c) for every c between cosLo (jOf k) and
cosHi (jOf k). -/
theorem tableBounds (k : ℕ) (hk : k < 120) :
    tableEntry k - 0.0046 ≤ 0.03 + 0.485 * (1 + cosLo (jOf k)) ∧
    0.03 + 0.485 * (1 + cosHi (jOf k)) ≤ tableEntry k + 0.0046 := by
  have hc : checkZ k = true :=
    List.all_eq_true.1 checkZ_all _ (List.mem_range.2 hk)
  simp only [checkZ, Bool.and_eq_true, decide_eq_true_eq] at hc
  obtain ⟨h1, h2⟩ := hc
  obtain ⟨heqL, hdL⟩ := cosLoZ_eq (jOf k)
  obtain ⟨heqH, hdH⟩ := cosHiZ_eq (jOf k)
  set mk := tableMilli.getD k 0 with hmk
  set nL := (cosLoZ (jOf k)).1 with hnL
  set dL := (cosLoZ (jOf k)).2 with hdLdef
  set nH := (cosHiZ (jOf k)).1 with hnH
  set dH := (cosHiZ (jOf k)).2 with hdHdef
  have hdLQ : (0:ℚ) < ((dL:ℤ):ℚ) := by exact_mod_cast hdL
  have hdHQ : (0:ℚ) < ((dH:ℤ):ℚ) := by exact_mod_cast hdH
  rw [tableEntry_eq k hk]
  constructor
  · rw [← heqL]
    have h1Q : (10*((mk:ℤ):ℚ) - 5196) * (200*((dL:ℤ):ℚ)) ≤ 97*((nL:ℤ):ℚ)*10000 := by
      exact_mod_cast h1
    have key : (10*((mk:ℤ):ℚ) - 5196) / 10000 ≤ 97*((nL:ℤ):ℚ)/(200*((dL:ℤ):ℚ)) := by
      rw [div_le_div_iff (by norm_num) (mul_pos (by norm_num) hdLQ)]
      linarith [h1Q]
    have hL2 : 97*((nL:ℤ):ℚ)/(200*((dL:ℤ):ℚ)) = 0.485 * (((nL:ℤ):ℚ)/((dL:ℤ):ℚ)) := by
      have hdLne : ((dL:ℤ):ℚ) ≠ 0 := ne_of_gt hdLQ
      field_simp
      ring
    have hL1 : (10*((mk:ℤ):ℚ) - 5196) / 10000 = ((mk:ℤ):ℚ)/1000 - 0.5196 := by ring
    linarith [key, hL1, hL2]
  · rw [← heqH]
    have h2Q : 97*((nH:ℤ):ℚ)*10000 ≤ (10*((mk:ℤ):ℚ) - 5104) * (200*((dH:ℤ):ℚ)) := by
      exact_mod_cast h2
    have key : 97*((nH:ℤ):ℚ)/(200*((dH:ℤ):ℚ)) ≤ (10*((mk:ℤ):ℚ) - 5104) / 10000 := by
      rw [div_le_div_iff (mul_pos (by norm_num) hdHQ) (by norm_num)]
      linarith [h2Q]
    have hL2 : 97*((nH:ℤ):ℚ)/(200*((dH:ℤ):ℚ)) = 0.485 * (((nH:ℤ):ℚ)/((dH:ℤ):ℚ)) := by
      have hdHne : ((dH:ℤ):ℚ) ≠ 0 := ne_of_gt hdHQ
      field_simp
      ring
    have hL1 : (10*((mk:ℤ):ℚ) - 5104) / 10000 = ((mk:ℤ):ℚ)/1000 - 0.5104 := by ring
    linarith [key, hL1, hL2]

end Diurnal

namespace Diurnal

/-- The cosine is 1-Lipschitz. -/
lemma abs_cos_sub_cos_le (a b : ℝ) : |Real.cos a - Real.cos b| ≤ |a - b| := by
  rw [Real.cos_sub_cos]
  have h1 : |Real.sin ((a+b)/2)| ≤ 1 :=
    abs_le.2 ⟨Real.neg_one_le_sin _, Real.sin_le_one _⟩
  have h2 : |Real.sin ((a-b)/2)| ≤ |(a-b)/2| := Real.abs_sin_le_abs
  calc |(-2) * Real.sin ((a+b)/2) * Real.sin ((a-b)/2)|
      = 2 * |Real.sin ((a+b)/2)| * |Real.sin ((a-b)/2)| := by
        rw [abs_mul, abs_mul]
        norm_num
    _ ≤ 2 * 1 * |(a-b)/2| := by
        gcongr
    _ = |a - b| := by
        rw [abs_div]
        norm_num
        ring

/-- Core agreement bound: on [0, 24) the continuous diurnal curve and the
discretized table differ by at most 0.0254 within a bucket plus 0.0046 of
per-bucket window error. -/
theorem diurnal_agreement (h : ℝ) (h0 : 0 ≤ h) (h24 : h < 24) :
    |V02.user_daily_activity_pattern h - V05.user_daily_activity_pattern_real h| ≤ 0.03 := by
  have hfl : ⌊h / 24⌋ = 0 := by
    rw [Int.floor_eq_zero_iff]
    constructor
    · positivity
    · show h / 24 < 1
      linarith
  have hmod : AppStore.pyModR h 24 = h := by
    unfold AppStore.pyModR
    rw [hfl]
    simp
  have h5nn : (0:ℝ) ≤ h * 5 := by linarith
  set K : ℤ := ⌊h * 5⌋ with hK
  have hK0 : 0 ≤ K := Int.floor_nonneg.2 h5nn
  have hKlt : K < 120 := by
    rw [hK, Int.floor_lt]
    push_cast
    linarith
  set k : ℕ := K.toNat with hk
  have hkK : (k:ℤ) = K := Int.toNat_of_nonneg hK0
  have hk120 : k < 120 := by omega
  have hpat : V05.user_daily_activity_pattern_real h = ((tableEntry k : ℚ):ℝ) := by
    unfold V05.user_daily_activity_pattern_real AppStore.pyIntR
    rw [hmod, if_pos h5nn]
    rfl
  have hbk1 : ((k:ℝ))/5 ≤ h := by
    have hfle : ((K:ℤ):ℝ) ≤ h * 5 := Int.floor_le (h * 5)
    have hkr : ((k:ℝ)) = ((K:ℤ):ℝ) := by exact_mod_cast hkK
    have : ((k:ℝ)) ≤ h * 5 := by
      rw [hkr]
      exact hfle
    linarith
  have hbk2 : h < ((k:ℝ) + 1)/5 := by
    have hflt : h * 5 < ((K:ℤ):ℝ) + 1 := Int.lt_floor_add_one (h * 5)
    have hkr : ((k:ℝ)) = ((K:ℤ):ℝ) := by exact_mod_cast hkK
    have : h * 5 < ((k:ℝ)) + 1 := by
      rw [hkr]
      exact hflt
    linarith
  have hjle : jOf k ≤ 80 := by
    unfold jOf
    split <;> omega
  have hcosk : Real.cos (((k:ℝ)/5 - 16) * (2*Real.pi/24)) =
      Real.cos ((jOf k : ℝ)*Real.pi/60) := by
    by_cases hc : k ≤ 80
    · have harg : ((k:ℝ)/5 - 16) * (2*Real.pi/24) = -(((jOf k : ℕ):ℝ)*Real.pi/60) := by
        unfold jOf
        rw [if_pos hc, Nat.cast_sub hc]
        push_cast
        ring
      rw [harg, Real.cos_neg]
    · have harg : ((k:ℝ)/5 - 16) * (2*Real.pi/24) = ((jOf k : ℕ):ℝ)*Real.pi/60 := by
        unfold jOf
        rw [if_neg hc, Nat.cast_sub (by omega)]
        push_cast
        ring
      rw [harg]
  obtain ⟨hcL, hcH⟩ := cosJ_correct (jOf k) hjle
  rw [← hcosk] at hcL hcH
  obtain ⟨htL, htH⟩ := tableBounds k hk120
  have htLR : ((tableEntry k - 0.0046 : ℚ):ℝ) ≤
      ((0.03 + 0.485 * (1 + cosLo (jOf k)) : ℚ):ℝ) := by exact_mod_cast htL
  have htHR : ((0.03 + 0.485 * (1 + cosHi (jOf k)) : ℚ):ℝ) ≤
      ((tableEntry k + 0.0046 : ℚ):ℝ) := by exact_mod_cast htH
  push_cast at htLR htHR
  have hlip : |Real.cos ((h - 16) * (2*Real.pi/24)) -
      Real.cos (((k:ℝ)/5 - 16) * (2*Real.pi/24))| ≤ Real.pi/60 := by
    have h1 := abs_cos_sub_cos_le ((h - 16) * (2*Real.pi/24))
      (((k:ℝ)/5 - 16) * (2*Real.pi/24))
    have h2 : |(h - 16) * (2*Real.pi/24) - ((k:ℝ)/5 - 16) * (2*Real.pi/24)| =
        (h - (k:ℝ)/5) * (Real.pi/12) := by
      rw [show (h - 16) * (2*Real.pi/24) - ((k:ℝ)/5 - 16) * (2*Real.pi/24) =
        (h - (k:ℝ)/5) * (Real.pi/12) from by ring]
      exact abs_of_nonneg (mul_nonneg (by linarith) (by positivity))
    rw [h2] at h1
    have h3 : (h - (k:ℝ)/5) * (Real.pi/12) ≤ (1/5) * (Real.pi/12) :=
      mul_le_mul_of_nonneg_right (by linarith) (by positivity)
    have h4 : (1/5) * (Real.pi/12) = Real.pi/60 := by ring
    linarith
  have hpi := Real.pi_lt_d6
  have hpi0 := Real.pi_gt_d6
  rw [hpat]
  unfold V02.user_daily_activity_pattern
  rw [abs_le] at hlip ⊢
  obtain ⟨hlip1, hlip2⟩ := hlip
  constructor
  · linarith
  · linarith

end Diurnal

namespace AppStore

/-- Python int() of a nonnegative value is the floor. -/
lemma pyInt_of_nonneg (q : ℚ) (h : 0 ≤ q) : pyInt q = ⌊q⌋ := if_pos h

/-- Python int() of a nonnegative value is nonnegative. -/
lemma pyInt_nonneg (q : ℚ) (h : 0 ≤ q) : 0 ≤ pyInt q := by
  rw [pyInt_of_nonneg q h]
  exact Int.floor_nonneg.2 h

/-- Python modulo with a positive modulus lands in [0, b). -/
lemma pyMod_mem (a b : ℚ) (hb : 0 < b) : 0 ≤ pyMod a b ∧ pyMod a b < b := by
  unfold pyMod
  have h1 : ((⌊a / b⌋ : ℤ):ℚ) ≤ a / b := Int.floor_le (a / b)
  have h2 : a / b < ((⌊a / b⌋ : ℤ):ℚ) + 1 := Int.lt_floor_add_one (a / b)
  have h3 : b * ((⌊a / b⌋ : ℤ):ℚ) ≤ b * (a / b) := by
    exact mul_le_mul_of_nonneg_left h1 (le_of_lt hb)
  have h4 : b * (a / b) < b * (((⌊a / b⌋ : ℤ):ℚ) + 1) := by
    exact mul_lt_mul_of_pos_left h2 hb
  have h5 : b * (a / b) = a := by field_simp
  constructor
  · linarith
  · nlinarith

/-- Python randint(a, b) lands in [a, b] for every tape value. -/
lemma pyRandint_mem (a b : ℤ) (r : ℕ) (hab : a ≤ b) :
    a ≤ pyRandint a b r ∧ pyRandint a b r ≤ b := by
  unfold pyRandint
  have hpos : 0 < (b - a + 1).toNat := by omega
  have hlt : r % (b - a + 1).toNat < (b - a + 1).toNat := Nat.mod_lt r hpos
  have h2 : ((r % (b - a + 1).toNat : ℕ):ℤ) < (((b - a + 1).toNat : ℕ):ℤ) := by
    exact_mod_cast hlt
  have h3 : (((b - a + 1).toNat : ℕ):ℤ) = b - a + 1 := by omega
  have h4 : (0:ℤ) ≤ ((r % (b - a + 1).toNat : ℕ):ℤ) := Int.natCast_nonneg _
  constructor
  · linarith
  · linarith [h2, h3]

/-- Python round(x, 2) produces a multiple of 1/100. -/
lemma round2_centi (q : ℚ) : ∃ m : ℤ, round2 q = (m:ℚ)/100 :=
  ⟨_, rfl⟩

/-- Python round(x, 2) keeps values of the price range inside [0.99, 99.99]. -/
lemma round2_price_bounds (q : ℚ) (h1 : 0.99 ≤ q) (h2 : q ≤ 99.99) :
    0.99 ≤ round2 q ∧ round2 q ≤ 99.99 := by
  unfold round2
  dsimp only
  have hn1 : (99:ℤ) ≤ ⌊q * 100⌋ := by
    rw [Int.le_floor]
    push_cast
    linarith
  have hn2 : ⌊q * 100⌋ ≤ 9999 := by
    rw [Int.floor_le_iff]
    push_cast
    linarith
  have hfl : ((⌊q * 100⌋ : ℤ):ℚ) ≤ q * 100 := Int.floor_le (q * 100)
  split_ifs with hf1 hf2 hev
  · constructor
    · push_cast
      have : (99:ℚ) ≤ ((⌊q * 100⌋ : ℤ):ℚ) := by exact_mod_cast hn1
      linarith
    · push_cast
      have : ((⌊q * 100⌋ : ℤ):ℚ) ≤ 9999 := by exact_mod_cast hn2
      linarith
  · have hn2' : ⌊q * 100⌋ ≤ 9998 := by
      by_contra hcon
      have h9999 : ⌊q * 100⌋ = 9999 := by omega
      rw [h9999] at hfl
      push_cast at hfl
      simp only [not_lt] at hf1
      rw [h9999] at hf2
      push_cast at hf2
      linarith
    constructor
    · push_cast
      have : (99:ℚ) ≤ ((⌊q * 100⌋ : ℤ):ℚ) := by exact_mod_cast hn1
      linarith
    · push_cast
      have : ((⌊q * 100⌋ : ℤ):ℚ) ≤ 9998 := by exact_mod_cast hn2'
      linarith
  · constructor
    · push_cast
      have : (99:ℚ) ≤ ((⌊q * 100⌋ : ℤ):ℚ) := by exact_mod_cast hn1
      linarith
    · push_cast
      have : ((⌊q * 100⌋ : ℤ):ℚ) ≤ 9999 := by exact_mod_cast hn2
      linarith
  · have hn2' : ⌊q * 100⌋ ≤ 9998 := by
      by_contra hcon
      have h9999 : ⌊q * 100⌋ = 9999 := by omega
      rw [h9999] at hf1
      push_cast at hf1
      simp only [not_lt] at hf1
      linarith
    constructor
    · push_cast
      have : (99:ℚ) ≤ ((⌊q * 100⌋ : ℤ):ℚ) := by exact_mod_cast hn1
      linarith
    · push_cast
      have : ((⌊q * 100⌋ : ℤ):ℚ) ≤ 9998 := by exact_mod_cast hn2'
      linarith

/-- Association lookup on a cons cell. -/
lemma alookup_cons {α : Type} (k0 : String) (v0 : α) (tl : List (String × α))
    (c : String) :
    alookup ((k0, v0) :: tl) c = if k0 = c then some v0 else alookup tl c := by
  by_cases h : k0 = c
  · subst h
    simp [alookup]
  · rw [if_neg h]
    unfold alookup
    rw [List.find?_cons_of_neg]
    simp [h]

/-- Looking up the key just set returns the new value. -/
lemma alookup_aset_self {α : Type} (m : List (String × α)) (k : String) (v : α) :
    alookup (aset m k v) k = some v := by
  induction m with
  | nil => simp [aset, alookup]
  | cons hd tl ih =>
    obtain ⟨k0, v0⟩ := hd
    by_cases hk : k0 = k
    · subst hk
      simp [aset, alookup_cons]
    · rw [show aset ((k0, v0) :: tl) k v = (k0, v0) :: aset tl k v from by
        simp [aset, hk]]
      rw [alookup_cons, if_neg hk]
      exact ih

/-- Looking up a different key is unchanged by an assignment. -/
lemma alookup_aset_ne {α : Type} (m : List (String × α)) (k c : String) (v : α)
    (h : c ≠ k) : alookup (aset m k v) c = alookup m c := by
  have hkc : k ≠ c := fun he => h he.symm
  induction m with
  | nil => simp [aset, alookup_cons, hkc, alookup]
  | cons hd tl ih =>
    obtain ⟨k0, v0⟩ := hd
    by_cases hk : k0 = k
    · subst hk
      rw [show aset ((k0, v0) :: tl) k0 v = (k0, v) :: tl from by simp [aset]]
      rw [alookup_cons, alookup_cons, if_neg hkc, if_neg hkc]
    · rw [show aset ((k0, v0) :: tl) k v = (k0, v0) :: aset tl k v from by
        simp [aset, hk]]
      rw [alookup_cons, alookup_cons]
      by_cases hc : k0 = c
      · rw [if_pos hc, if_pos hc]
      · rw [if_neg hc, if_neg hc]
        exact ih

end AppStore

namespace V05

/-- The selected key of the cumulative scan is a key of the distribution. -/
lemma pickCum_mem (distribution : List (String × ℚ)) (x : ℚ)
    (h : distribution ≠ []) : pickCum distribution x ∈ distribution.map Prod.fst := by
  induction distribution generalizing x with
  | nil => exact absurd rfl h
  | cons hd tl ih =>
    obtain ⟨c, w⟩ := hd
    cases tl with
    | nil => simp [pickCum]
    | cons hd2 tl2 =>
      rw [show pickCum ((c, w) :: hd2 :: tl2) x =
        if x < w then c else pickCum (hd2 :: tl2) (x - w) from rfl]
      by_cases hx : x < w
      · rw [if_pos hx]
        simp
      · rw [if_neg hx]
        have := ih (x - w) (by simp)
        simp only [List.map_cons, List.mem_cons] at this ⊢
        tauto

/-- The modulated-weights loop succeeds whenever every listed country has a
timezone entry, its sum clause: the returned sum extends the accumulator by
the sum of the recomputed weights, and its mapping clause: every listed
country with a unique key reads back its recomputed weight. -/
lemma gtmwGo_spec (hr : ℚ) (tz : List (String × ℚ)) :
    ∀ (dist acc : List (String × ℚ)) (s : ℚ),
    (∀ p ∈ dist, (AppStore.alookup tz p.1).isSome = true) →
    ∃ acc2,
      gtmwGo hr tz dist acc s = .ok (acc2,
        s + ((dist.map (fun p =>
          p.2 * user_daily_activity_pattern (hr + (AppStore.alookup tz p.1).getD 0))).sum)) ∧
      (∀ c, (∀ w, (c, w) ∉ dist) → AppStore.alookup acc2 c = AppStore.alookup acc c) ∧
      ((dist.map Prod.fst).Nodup →
        ∀ c w off, (c, w) ∈ dist → AppStore.alookup tz c = some off →
          AppStore.alookup acc2 c = some (w * user_daily_activity_pattern (hr + off))) := by
  intro dist
  induction dist with
  | nil =>
    intro acc s _
    refine ⟨acc, by simp [gtmwGo], fun c _ => rfl, ?_⟩
    intro _ c w off hmem
    exact absurd hmem (List.not_mem_nil _)
  | cons hd tl ih =>
    intro acc s hcov
    obtain ⟨c0, w0⟩ := hd
    have hc0 : (AppStore.alookup tz c0).isSome = true := hcov (c0, w0) (by simp)
    obtain ⟨off0, hoff0⟩ := Option.isSome_iff_exists.1 hc0
    have hcovtl : ∀ p ∈ tl, (AppStore.alookup tz p.1).isSome = true :=
      fun p hp => hcov p (List.mem_cons_of_mem _ hp)
    set mw0 := w0 * user_daily_activity_pattern (hr + off0) with hmw0
    obtain ⟨acc2, heq, hframe, hmap⟩ := ih (AppStore.aset acc c0 mw0) (s + mw0) hcovtl
    refine ⟨acc2, ?_, ?_, ?_⟩
    · rw [show gtmwGo hr tz ((c0, w0) :: tl) acc s =
        gtmwGo hr tz tl (AppStore.aset acc c0
          (w0 * user_daily_activity_pattern (hr + off0))) (s + w0 *
            user_daily_activity_pattern (hr + off0)) from by
        rw [gtmwGo, hoff0]]
      rw [← hmw0, heq]
      have hgetD : (AppStore.alookup tz c0).getD 0 = off0 := by
        rw [hoff0]
        rfl
      simp only [List.map_cons, List.sum_cons, hgetD]
      exact congrArg (fun z => Except.ok (acc2, z)) (by ring)
    · intro c hnot
      have hc0ne : c ≠ c0 := by
        intro he
        exact hnot w0 (by rw [he]; simp)
      rw [hframe c (fun w hw => hnot w (List.mem_cons_of_mem _ hw)),
        AppStore.alookup_aset_ne _ _ _ _ hc0ne]
    · intro hnd c w off hmem hoff
      rw [List.map_cons, List.nodup_cons] at hnd
      obtain ⟨hc0notin, hndtl⟩ := hnd
      rcases List.mem_cons.1 hmem with hhd | htl
      · have hc : c = c0 := congrArg Prod.fst hhd
        have hw : w = w0 := congrArg Prod.snd hhd
        have hoffeq : off0 = off := by
          rw [hc, hoff0] at hoff
          exact Option.some.inj hoff
        have hnotin : ∀ w2, (c0, w2) ∉ tl := by
          intro w2 hw2
          exact hc0notin (List.mem_map.2 ⟨(c0, w2), hw2, rfl⟩)
        rw [hc, hframe c0 hnotin, AppStore.alookup_aset_self, hmw0, hw, hoffeq]
      · exact hmap hndtl c w off htl hoff

end V05

namespace V05

/-- Success of generate_time_modulated_weights under timezone coverage. -/
lemma gtmw_ok (globalHour : ℚ) (dist tz prior : List (String × ℚ))
    (hcov : ∀ p ∈ dist, (AppStore.alookup tz p.1).isSome = true) :
    ∃ modulated,
      generate_time_modulated_weights globalHour dist tz prior = .ok (modulated,
        (dist.map (fun p => p.2 * user_daily_activity_pattern
          (AppStore.round2 globalHour + (AppStore.alookup tz p.1).getD 0))).sum) := by
  obtain ⟨acc2, heq, _, _⟩ := gtmwGo_spec (AppStore.round2 globalHour) tz dist prior 0 hcov
  refine ⟨acc2, ?_⟩
  rw [generate_time_modulated_weights, heq]
  norm_num

/-- The first component of generate_event is always the advanced clock:
the globals mutate before any later raise or return. -/
lemma generate_event_clock (cfg : Config) (usersByCountry : List (String × List String))
    (rateMax : ℚ) (clock : ClockState) (t : GenTape) :
    (generate_event cfg usersByCountry rateMax clock t).1 = advanceClock clock t.expDraw := by
  unfold generate_event
  cases hg : generate_time_modulated_weights (advanceClock clock t.expDraw).hour
      cfg.countryDistribution cfg.countryTimezone cfg.modulatedPrior with
  | error e => simp
  | ok pair =>
    obtain ⟨m, s⟩ := pair
    simp only []
    split
    · rfl
    · cases hs : sampleAccepted cfg usersByCountry (advanceClock clock t.expDraw) m t with
      | error e => simp [hs]
      | ok ev => simp [hs]

/-- Every successfully produced record carries the payload built by
build_event_details for its own event type. -/
lemma generate_event_details_link (cfg : Config)
    (usersByCountry : List (String × List String)) (rateMax : ℚ)
    (clock : ClockState) (t : GenTape) (ev : EventRecord)
    (h : (generate_event cfg usersByCountry rateMax clock t).2 = .ok (some ev)) :
    ev.event_details = build_event_details ev.event_type t := by
  unfold generate_event at h
  cases hg : generate_time_modulated_weights (advanceClock clock t.expDraw).hour
      cfg.countryDistribution cfg.countryTimezone cfg.modulatedPrior with
  | error e =>
    rw [hg] at h
    simp at h
  | ok pair =>
    obtain ⟨m, s⟩ := pair
    rw [hg] at h
    simp only [] at h
    split_ifs at h with hif
    · simp at h
    · cases hs : sampleAccepted cfg usersByCountry (advanceClock clock t.expDraw) m t with
      | error e =>
        rw [hs] at h
        simp at h
      | ok ev2 =>
        rw [hs] at h
        simp only [Except.ok.injEq, Option.some.injEq] at h
        subst h
        unfold sampleAccepted at hs
        cases h1 : get_weighted_choice m t.uCountry with
        | error e => simp [h1] at hs
        | ok countryCode =>
          simp only [h1] at hs
          cases h2 : AppStore.alookup usersByCountry countryCode with
          | none => simp [h2] at hs
          | some users =>
            simp only [h2] at hs
            cases h3 : randomChoice users t.rUser with
            | error e => simp [h3] at hs
            | ok userId =>
              simp only [h3] at hs
              cases h4 : get_weighted_choice cfg.eventTypeDistribution t.uEventType with
              | error e => simp [h4] at hs
              | ok eventType =>
                simp only [h4] at hs
                cases h5 : get_weighted_choice cfg.deviceTypeDistribution t.uDevice with
                | error e => simp [h5] at hs
                | ok deviceType =>
                  simp only [h5] at hs
                  simp only [Except.ok.injEq] at hs
                  subst hs
                  rfl

end V05

section Claims

open V05

/-- C3 (amended): with events_per_second = 0 the simple variant applies no
pacing sleep at all, but the Poisson-throttled variant sleeps a fixed 0.00225
seconds each iteration (capping throughput at about 445 events per second). -/
theorem c3_unthrottled_pacing (randomness jitter : ℚ) :
    V02.pacingSleep 0 randomness jitter = none ∧
    V05.pacingSleep 0 randomness jitter = some 0.00225 := by
  constructor <;> simp [V02.pacingSleep, V05.pacingSleep]

/-- C3 counterexample: the claim states that events_per_second = 0 means no
pacing sleep between iterations, but the Poisson variant cited by the claim
sleeps 0.00225 seconds in exactly that case. -/
theorem c3_poisson_sleep_counterexample :
    V05.pacingSleep 0 (1/10) (1/2) = some 0.00225 ∧
    some (0.00225:ℚ) ≠ (none : Option ℚ) := by
  constructor
  · simp [V05.pacingSleep]
  · simp

/-- C3 witness: the amended statement instantiated at randomness 0.2 and a
concrete jitter draw. -/
theorem c3_witness :
    V02.pacingSleep 0 0.2 0.7 = none ∧ V05.pacingSleep 0 0.2 0.7 = some 0.00225 :=
  c3_unthrottled_pacing 0.2 0.7

/-- C9: startup in the Poisson variant always overwrites the wall-clock seeded
simulation clock with the hard-coded resume constants 1760854441420750
microseconds and hour 6.233727986111111, whatever the actual current time is;
no external input reaches this assignment. -/
theorem c9_hardcoded_resume (wallMicros : ℤ) (wallHour : ℚ) :
    initClock wallMicros wallHour =
      { micros := 1760854441420750, hour := 6.233727986111111 } := rfl

/-- Contrast for C10: under exact rational arithmetic the lookup index
int((hour mod 24) * 5) always lies in [0, 119], so the out-of-bounds access
exhibited below is purely a floating-point artifact, not a mathematical one. -/
theorem patternIndex_exact_total (hour : ℚ) :
    0 ≤ patternIndex hour ∧ patternIndex hour ≤ 119 ∧
    user_daily_activity_pattern hour ∈ HOURLY_MODULATION_FACTORS := by
  obtain ⟨hm0, hmlt⟩ := AppStore.pyMod_mem hour 24 (by norm_num)
  have h5 : 0 ≤ AppStore.pyMod hour 24 * 5 := by linarith
  have hidx0 : 0 ≤ patternIndex hour := AppStore.pyInt_nonneg _ h5
  have hidxle : patternIndex hour ≤ 119 := by
    rw [patternIndex, AppStore.pyInt_of_nonneg _ h5]
    have hlt : AppStore.pyMod hour 24 * 5 < 120 := by linarith
    have : ⌊AppStore.pyMod hour 24 * 5⌋ < 120 := Int.floor_lt.2 (by exact_mod_cast hlt)
    omega
  refine ⟨hidx0, hidxle, ?_⟩
  have hklt : (patternIndex hour).toNat < HOURLY_MODULATION_FACTORS.length := by
    have hlen : HOURLY_MODULATION_FACTORS.length = 120 := by rfl
    omega
  rw [user_daily_activity_pattern, List.getD_eq_getElem?_getD,
    List.getElem?_eq_getElem hklt, Option.getD_some]
  exact List.getElem_mem hklt

/-- The binary64 rounding of 24 - 2 ^ (-60): the value lies within half an ulp
of 24 (spacing 2 ^ (-48) just below 24), so it rounds up to exactly 24.0. -/
theorem roundDouble_near24 : AppStore.roundDouble (24 - 1 / 2 ^ 60) = 24 := by
  have hq : (24 - 1 / 2 ^ 60 : ℚ) ≠ 0 := by norm_num
  have habs : |(24 - 1 / 2 ^ 60 : ℚ)| = 24 - 1 / 2 ^ 60 := abs_of_pos (by norm_num)
  have hnf : ⌊(24 - 1 / 2 ^ 60 : ℚ)⌋₊ = 23 := by
    rw [Nat.floor_eq_iff (by norm_num)]
    norm_num
  have hnl : Nat.log 2 23 = 4 := Nat.log_eq_of_pow_le_of_lt_pow (by norm_num) (by norm_num)
  have hlog : Int.log 2 (24 - 1 / 2 ^ 60 : ℚ) = 4 := by
    rw [Int.log_of_one_le_right 2 (by norm_num), hnf, hnl]
    norm_num
  have hmax : max (4 - 52 : ℤ) (-1074) = -48 := by decide
  rw [AppStore.roundDouble, if_neg hq, habs, hlog, hmax]
  have hdiv : (24 - 1 / 2 ^ 60 : ℚ) / 2 ^ (-48 : ℤ) = 6755399441055744 - 1 / 4096 := by
    rw [zpow_neg]
    norm_num
  have hfl : ⌊(6755399441055744 - 1 / 4096 : ℚ)⌋ = 6755399441055743 := by
    rw [Int.floor_eq_iff]
    norm_num
  have hrne : AppStore.rne (6755399441055744 - 1 / 4096 : ℚ) = 6755399441055744 := by
    rw [AppStore.rne, hfl]
    norm_num
  rw [hdiv, hrne, zpow_neg]
  norm_num

/-- The binary64 rounding is the identity on the representable value 120. -/
theorem roundDouble_of_120 : AppStore.roundDouble 120 = 120 := by
  have hnf : ⌊(120 : ℚ)⌋₊ = 120 := by norm_num
  have hnl : Nat.log 2 120 = 6 := Nat.log_eq_of_pow_le_of_lt_pow (by norm_num) (by norm_num)
  have hlog : Int.log 2 (120 : ℚ) = 6 := by
    rw [Int.log_of_one_le_right 2 (by norm_num), hnf, hnl]
    norm_num
  have hmax : max (6 - 52 : ℤ) (-1074) = -46 := by decide
  have habs : |(120 : ℚ)| = 120 := by norm_num
  rw [AppStore.roundDouble, if_neg (by norm_num : (120 : ℚ) ≠ 0), habs, hlog, hmax]
  have hdiv : (120 : ℚ) / 2 ^ (-46 : ℤ) = 8444249301319680 := by
    rw [zpow_neg]
    norm_num
  have hfl : ⌊(8444249301319680 : ℚ)⌋ = 8444249301319680 := by norm_num
  have hrne : AppStore.rne (8444249301319680 : ℚ) = 8444249301319680 := by
    rw [AppStore.rne, hfl]
    norm_num
  rw [hdiv, hrne, zpow_neg]
  norm_num

/-- CPython float remainder at the tiny negative double -2 ^ (-60): fmod is
the value itself, the sign adjustment adds the divisor 24, and the rounded sum
24 - 2 ^ (-60) is exactly 24.0 - the remainder equals the modulus. -/
theorem pyModF_tiny_neg : AppStore.pyModF (-(1 / 2 ^ 60)) 24 = 24 := by
  have hpy : AppStore.pyInt ((-(1 / 2 ^ 60) : ℚ) / 24) = 0 := by
    rw [AppStore.pyInt, if_neg (by norm_num)]
    norm_num
  have hfm : AppStore.fmodQ (-(1 / 2 ^ 60)) 24 = -(1 / 2 ^ 60) := by
    rw [AppStore.fmodQ, hpy]
    norm_num
  rw [AppStore.pyModF, hfm, if_neg (by norm_num), if_pos (by norm_num)]
  have h24 : (-(1 / 2 ^ 60) + 24 : ℚ) = 24 - 1 / 2 ^ 60 := by ring
  rw [h24, roundDouble_near24]

/-- C10 (code bug): the in-bounds claim is false of the program under the IEEE
binary64 arithmetic it actually runs on. At the representable negative hour
-2 ^ (-60), CPython float remainder returns the modulus itself
(hour % 24 == 24.0), the lookup index int((hour % 24) * 5) is 120, and the
120-entry table subscript raises IndexError instead of returning a value. -/
theorem c10_pattern_index_oob :
    AppStore.pyModF (-(1 / 2 ^ 60)) 24 = 24 ∧
    AppStore.pyInt (AppStore.roundDouble (AppStore.pyModF (-(1 / 2 ^ 60)) 24 * 5)) = 120 ∧
    user_daily_activity_pattern_float (-(1 / 2 ^ 60)) = none := by
  have hmul : AppStore.pyModF (-(1 / 2 ^ 60)) 24 * 5 = 120 := by
    rw [pyModF_tiny_neg]
    norm_num
  have hidx : AppStore.pyInt
      (AppStore.roundDouble (AppStore.pyModF (-(1 / 2 ^ 60)) 24 * 5)) = 120 := by
    rw [hmul, roundDouble_of_120, AppStore.pyInt, if_pos (by norm_num)]
    norm_num
  refine ⟨pyModF_tiny_neg, hidx, ?_⟩
  rw [user_daily_activity_pattern_float, hidx]
  rfl

/-- C7 (amended): a weighted-sampler draw on an empty distribution fails with
the EmptyDistribution error; on a non-empty distribution whose total weight is
positive it returns exactly one label, a key of the distribution. A non-empty
distribution whose total weight is not positive also fails (random.choices
raises ValueError), rather than returning a label. -/
theorem c7_weighted_sampler (distribution : List (String × ℚ)) (u : ℚ) :
    (distribution = [] →
      get_weighted_choice distribution u = .error .emptyDistribution) ∧
    (distribution ≠ [] → 0 < totalWeight distribution →
      ∃ c, get_weighted_choice distribution u = .ok c ∧
        c ∈ distribution.map Prod.fst) := by
  constructor
  · intro h
    subst h
    rfl
  · intro hne hpos
    refine ⟨pickCum distribution (u * totalWeight distribution), ?_,
      pickCum_mem distribution _ hne⟩
    rw [get_weighted_choice, if_neg (by simpa using hne), if_neg (not_le.2 hpos)]

/-- C7 counterexample: the distribution with the single entry A of weight 0 is
non-empty, yet the draw fails with the ValueError that random.choices raises
for a non-positive total instead of returning a label. -/
theorem c7_zero_total_counterexample :
    get_weighted_choice [("A", 0)] (1/2) = .error .nonPositiveTotal := by
  simp [get_weighted_choice, totalWeight]

/-- C7 witness: the amended statement at the empty distribution and at the
two-entry distribution A 0.6, B 0.4. -/
theorem c7_witness :
    (get_weighted_choice [] (1/2) = .error .emptyDistribution) ∧
    ∃ c, get_weighted_choice [("A", 0.6), ("B", 0.4)] (1/2) = .ok c ∧
      c ∈ ([(("A":String), (0.6:ℚ)), ("B", 0.4)].map Prod.fst) :=
  ⟨(c7_weighted_sampler [] (1/2)).1 rfl,
   (c7_weighted_sampler [("A", 0.6), ("B", 0.4)] (1/2)).2 (by simp)
     (by norm_num [totalWeight])⟩

/-- C8: every generate_event call of the Poisson variant advances the virtual
clock by a nonnegative amount, whether the arrival is accepted, rejected or a
later step raises: both the microsecond counter and the fractional hour never
decrease. -/
theorem c8_clock_monotonic (cfg : Config) (usersByCountry : List (String × List String))
    (rateMax : ℚ) (clock : ClockState) (t : GenTape) (h : 0 ≤ t.expDraw) :
    clock.micros ≤ (generate_event cfg usersByCountry rateMax clock t).1.micros ∧
    clock.hour ≤ (generate_event cfg usersByCountry rateMax clock t).1.hour := by
  rw [generate_event_clock]
  unfold advanceClock
  constructor
  · have := AppStore.pyInt_nonneg (t.expDraw * 1000000) (by positivity)
    simp only []
    omega
  · have : 0 ≤ t.expDraw / 3600 := by positivity
    simp only []
    linarith

/-- Countries absent from the input distribution are absent from both outputs
of the startup loop. -/
lemma init_alookup_not_mem (supply : String → ℕ → String)
    (fraction replicas perSecond : ℚ) (dist : List (String × ℚ)) (c : String)
    (h : c ∉ dist.map Prod.fst) :
    AppStore.alookup
      (initUsersByCountry supply fraction replicas perSecond dist).distribution c = none ∧
    AppStore.alookup
      (initUsersByCountry supply fraction replicas perSecond dist).usersByCountry c = none := by
  induction dist with
  | nil => exact ⟨rfl, rfl⟩
  | cons hd tl ih =>
    obtain ⟨c0, w0⟩ := hd
    simp only [List.map_cons, List.mem_cons] at h
    push_neg at h
    obtain ⟨hne, hnotin⟩ := h
    have hc0c : c0 ≠ c := fun he => hne he.symm
    rw [initUsersByCountry]
    split_ifs with hn
    · exact ih hnotin
    · constructor
      · rw [AppStore.alookup_cons, if_neg hc0c]
        exact (ih hnotin).1
      · rw [AppStore.alookup_cons, if_neg hc0c]
        exact (ih hnotin).2

/-- C4: at startup, for every country of the configured distribution the user
pool is sized int(base_weight * users_population_fraction /
gke_replicas_factor), and a country whose computed population is zero is
removed from both the surviving distribution and USERS_BY_COUNTRY. -/
theorem c4_user_pool_sizing (supply : String → ℕ → String)
    (fraction replicas perSecond : ℚ) (dist : List (String × ℚ)) (c : String)
    (w : ℚ) (hmem : (c, w) ∈ dist) (hnd : (dist.map Prod.fst).Nodup) :
    (AppStore.pyInt (w * fraction / replicas) = 0 →
      AppStore.alookup
        (initUsersByCountry supply fraction replicas perSecond dist).distribution c = none ∧
      AppStore.alookup
        (initUsersByCountry supply fraction replicas perSecond dist).usersByCountry c = none) ∧
    (AppStore.pyInt (w * fraction / replicas) ≠ 0 →
      AppStore.alookup
        (initUsersByCountry supply fraction replicas perSecond dist).distribution c = some w ∧
      ∃ users, AppStore.alookup
          (initUsersByCountry supply fraction replicas perSecond dist).usersByCountry c =
            some users ∧
        users.length = (AppStore.pyInt (w * fraction / replicas)).toNat) := by
  induction dist with
  | nil => cases hmem
  | cons hd tl ih =>
    obtain ⟨c0, w0⟩ := hd
    rw [List.map_cons, List.nodup_cons] at hnd
    obtain ⟨hc0notin, hndtl⟩ := hnd
    rcases List.mem_cons.1 hmem with hhd | htl
    · have hc : c = c0 := congrArg Prod.fst hhd
      have hw : w = w0 := congrArg Prod.snd hhd
      subst hc
      subst hw
      rw [initUsersByCountry]
      split_ifs with hn

      · exact ⟨fun _ => init_alookup_not_mem supply fraction replicas perSecond tl c hc0notin,
          fun hne => absurd hn hne⟩
      · refine ⟨fun h0 => absurd h0 hn, fun _ => ?_⟩
        refine ⟨?_, mkUsers supply c (AppStore.pyInt (w * fraction / replicas)).toNat, ?_, ?_⟩
        · rw [AppStore.alookup_cons, if_pos rfl]
        · rw [AppStore.alookup_cons, if_pos rfl]
        · simp [mkUsers]
    · have hcne : c ≠ c0 := by
        intro he
        exact hc0notin (he ▸ List.mem_map.2 ⟨(c, w), htl, rfl⟩)
      have hc0c : c0 ≠ c := fun he => hcne he.symm
      rw [initUsersByCountry]
      split_ifs with hn
      · exact ih htl hndtl
      · have hih := ih htl hndtl
        constructor
        · intro h0
          obtain ⟨h1, h2⟩ := hih.1 h0
          constructor
          · rw [AppStore.alookup_cons, if_neg hc0c]
            exact h1
          · rw [AppStore.alookup_cons, if_neg hc0c]
            exact h2
        · intro hne
          obtain ⟨h1, h2⟩ := hih.2 hne
          refine ⟨?_, ?_⟩
          · rw [AppStore.alookup_cons, if_neg hc0c]
            exact h1
          · obtain ⟨users, hu1, hu2⟩ := h2
            refine ⟨users, ?_, hu2⟩
            rw [AppStore.alookup_cons, if_neg hc0c]
            exact hu1

/-- C4 witness: the concrete scenario of the claim, base_weight 0.001 with
population fraction 0.001 and replica factor 10 computes 0 users, and the
country IR is dropped from both the distribution and the user pools, while
the country US with weight 3000000 keeps 300 users. -/
theorem c4_witness :
    AppStore.pyInt ((0.001:ℚ) * 0.001 / 10) = 0 ∧
    (AppStore.alookup (initUsersByCountry (fun _ _ => "u") 0.001 10 1
      [("IR", 0.001), ("US", 3000000)]).distribution ("IR") = none ∧
     AppStore.alookup (initUsersByCountry (fun _ _ => "u") 0.001 10 1
      [("IR", 0.001), ("US", 3000000)]).usersByCountry ("IR") = none) := by
  have happ := c4_user_pool_sizing (fun _ _ => "u") 0.001 10 1
    [("IR", 0.001), ("US", 3000000)] "IR" 0.001 (by simp) (by simp)
  have hz : AppStore.pyInt ((0.001:ℚ) * 0.001 / 10) = 0 := by
    norm_num [AppStore.pyInt]
  exact ⟨hz, happ.1 hz⟩

/-- C5 (amended): for every clock hour and every country of the active
distribution that has a timezone entry, the recomputed modulated weight equals
base_weight * DiurnalModulator(round(clock_hour, 2) + utc_offset) - the
function first rounds the clock hour to two decimals - and the function
returns the refreshed per-country mapping together with the scalar sum of the
modulated weights of the listed countries. -/
theorem c5_modulated_weights (globalHour : ℚ) (dist tz prior : List (String × ℚ))
    (hcov : ∀ p ∈ dist, (AppStore.alookup tz p.1).isSome = true) :
    ∃ modulated,
      generate_time_modulated_weights globalHour dist tz prior = .ok (modulated,
        (dist.map (fun p => p.2 * user_daily_activity_pattern
          (AppStore.round2 globalHour + (AppStore.alookup tz p.1).getD 0))).sum) ∧
      ((dist.map Prod.fst).Nodup → ∀ c w off, (c, w) ∈ dist →
        AppStore.alookup tz c = some off →
        AppStore.alookup modulated c =
          some (w * user_daily_activity_pattern (AppStore.round2 globalHour + off))) := by
  obtain ⟨acc2, heq, _, hmap⟩ :=
    gtmwGo_spec (AppStore.round2 globalHour) tz dist prior 0 hcov
  refine ⟨acc2, ?_, hmap⟩
  rw [generate_time_modulated_weights, heq]
  norm_num

/-- C5 counterexample: at clock hour 0.199 with a single country US of base
weight 1 and offset 0, the code first rounds the hour to 0.2, reads table
bucket 1 and produces the modulated weight 0.251, while base_weight *
DiurnalModulator(clock_hour + offset) without the rounding reads bucket 0 and
equals 0.272, so the claim as stated fails at this clock hour. -/
theorem c5_rounding_counterexample :
    generate_time_modulated_weights 0.199 [("US", 1)] [("US", 0)] [] =
      .ok ([("US", 0.251)], 0.251) ∧
    (1:ℚ) * user_daily_activity_pattern (0.199 + 0) = 0.272 ∧
    (0.251:ℚ) ≠ 0.272 := by
  have hround : AppStore.round2 0.199 = 0.2 := by
    norm_num [AppStore.round2]
  have hpat2 : user_daily_activity_pattern 0.2 = 0.251 := by
    have hidx : patternIndex 0.2 = 1 := by
      norm_num [patternIndex, AppStore.pyInt, AppStore.pyMod]
    rw [user_daily_activity_pattern, hidx]
    rfl
  have hpat0 : user_daily_activity_pattern (0.199 + 0) = 0.272 := by
    have hidx : patternIndex (0.199 + 0) = 0 := by
      norm_num [patternIndex, AppStore.pyInt, AppStore.pyMod]
    rw [user_daily_activity_pattern, hidx]
    rfl
  refine ⟨?_, by rw [hpat0]; norm_num, by norm_num⟩
  rw [generate_time_modulated_weights, hround]
  simp [gtmwGo, AppStore.alookup, AppStore.aset, hpat2]

/-- C5 witness: the amended statement at clock hour 0.199 for the single
country US with base weight 1 and offset 0. -/
theorem c5_witness :
    ∃ modulated,
      generate_time_modulated_weights 0.199 [("US", 1)] [("US", 0)] [] =
        .ok (modulated,
          ([(("US":String), (1:ℚ))].map (fun p => p.2 * user_daily_activity_pattern
            (AppStore.round2 0.199 +
              (AppStore.alookup [(("US":String), (0:ℚ))] p.1).getD 0))).sum) ∧
      (([(("US":String), (1:ℚ))].map Prod.fst).Nodup →
        ∀ c w off, (c, w) ∈ [(("US":String), (1:ℚ))] →
        AppStore.alookup [(("US":String), (0:ℚ))] c = some off →
        AppStore.alookup modulated c =
          some (w * user_daily_activity_pattern (AppStore.round2 0.199 + off))) :=
  c5_modulated_weights 0.199 [("US", 1)] [("US", 0)] [] (by simp [AppStore.alookup])

/-- C1: every generate_event call of the Poisson variant performs the thinning
steps in order. The clock first advances by the drawn exponential gap (the
expDraw tape field stands for random.expovariate(GLOBAL_RATE_MAXIMUM)); the
modulated country-weight sum is recomputed at the new clock hour; the arrival
is accepted exactly when the uniform thinning draw does not exceed
modulated_sum / GLOBAL_RATE_MAXIMUM, and a rejected call returns the none
signal; on rejection the outcome is independent of every remaining tape
field, so country and event attributes are sampled only on acceptance. -/
theorem c1_poisson_thinning (cfg : Config)
    (usersByCountry : List (String × List String)) (rateMax : ℚ)
    (clock : ClockState) (t : GenTape)
    (hcov : ∀ p ∈ cfg.countryDistribution,
      (AppStore.alookup cfg.countryTimezone p.1).isSome = true) :
    (generate_event cfg usersByCountry rateMax clock t).1 =
      advanceClock clock t.expDraw ∧
    (advanceClock clock t.expDraw).micros =
      clock.micros + AppStore.pyInt (t.expDraw * 1000000) ∧
    (advanceClock clock t.expDraw).hour = clock.hour + t.expDraw / 3600 ∧
    ∃ modulated modulatedSum,
      generate_time_modulated_weights (advanceClock clock t.expDraw).hour
        cfg.countryDistribution cfg.countryTimezone cfg.modulatedPrior =
          .ok (modulated, modulatedSum) ∧
      ((generate_event cfg usersByCountry rateMax clock t).2 = .ok none ↔
        modulatedSum / rateMax < t.uThin) ∧
      (modulatedSum / rateMax < t.uThin →
        ∀ t2 : GenTape, t2.expDraw = t.expDraw → t2.uThin = t.uThin →
          generate_event cfg usersByCountry rateMax clock t2 =
            (advanceClock clock t.expDraw, .ok none)) := by
  obtain ⟨modulated, hg⟩ := gtmw_ok (advanceClock clock t.expDraw).hour
    cfg.countryDistribution cfg.countryTimezone cfg.modulatedPrior hcov
  refine ⟨generate_event_clock cfg usersByCountry rateMax clock t, rfl, rfl,
    modulated, _, hg, ?_, ?_⟩
  · by_cases hif : (cfg.countryDistribution.map (fun p =>
        p.2 * user_daily_activity_pattern
          (AppStore.round2 (advanceClock clock t.expDraw).hour +
            (AppStore.alookup cfg.countryTimezone p.1).getD 0))).sum / rateMax < t.uThin
    · simp [generate_event, hg, hif]
    · simp only [generate_event, hg, if_neg hif]
      cases hs : sampleAccepted cfg usersByCountry (advanceClock clock t.expDraw)
          modulated t with
      | error e => simp [hs, hif]
      | ok ev => simp [hs, hif]
  · intro hif t2 he hu
    simp only [generate_event, he, hg]
    rw [if_pos (by rw [hu]; exact hif)]

/-- A concrete configuration for witness runs: one country US with weight 1
and offset 0, purchases only, phones only. -/
def sampleConfig : Config :=
  { countryDistribution := [("US", 1)]
    countryTimezone := [("US", 0)]
    modulatedPrior := [("US", 0)]
    eventTypeDistribution := [("in_app_purchase", 1)]
    deviceTypeDistribution := [("phone", 1)] }

/-- A concrete user pool for witness runs. -/
def samplePool : List (String × List String) := [("US", ["user0"])]

/-- A concrete tape of draws for witness runs: zero gap, accepting thinning
draw, first element everywhere. -/
def sampleTape : GenTape :=
  { expDraw := 0
    uThin := 0
    uCountry := 0
    rUser := 0
    uEventType := 0
    uDevice := 0
    searchQuery := "q"
    rRating := 0
    rItem := 0
    uPrice := 0
    wallMicros := 0
    eventId := "e"
    sessionId := "s"
    rApp := 0
    rOsPick := 0
    rOsMajor := 0
    rOsMinor := 0 }

/-- C1 witness: the thinning-step statement instantiated on the concrete
configuration, pool, rate bound 1, the zero clock and the concrete tape. -/
theorem c1_witness :
    (generate_event sampleConfig samplePool 1 { micros := 0, hour := 0 } sampleTape).1 =
      advanceClock { micros := 0, hour := 0 } sampleTape.expDraw ∧
    (advanceClock { micros := 0, hour := 0 } sampleTape.expDraw).micros =
      (0:ℤ) + AppStore.pyInt (sampleTape.expDraw * 1000000) ∧
    (advanceClock { micros := 0, hour := 0 } sampleTape.expDraw).hour =
      (0:ℚ) + sampleTape.expDraw / 3600 ∧
    ∃ modulated modulatedSum,
      generate_time_modulated_weights
        (advanceClock { micros := 0, hour := 0 } sampleTape.expDraw).hour
        sampleConfig.countryDistribution sampleConfig.countryTimezone
        sampleConfig.modulatedPrior = .ok (modulated, modulatedSum) ∧
      ((generate_event sampleConfig samplePool 1 { micros := 0, hour := 0 }
        sampleTape).2 = .ok none ↔ modulatedSum / 1 < sampleTape.uThin) ∧
      (modulatedSum / 1 < sampleTape.uThin →
        ∀ t2 : GenTape, t2.expDraw = sampleTape.expDraw →
          t2.uThin = sampleTape.uThin →
          generate_event sampleConfig samplePool 1 { micros := 0, hour := 0 } t2 =
            (advanceClock { micros := 0, hour := 0 } sampleTape.expDraw, .ok none)) :=
  c1_poisson_thinning sampleConfig samplePool 1 { micros := 0, hour := 0 }
    sampleTape (by simp [sampleConfig, AppStore.alookup])

/-- C8 witness: clock monotonicity instantiated on the concrete inputs. -/
theorem c8_witness :
    (0:ℚ) ≤ sampleTape.expDraw ∧
    (({ micros := 0, hour := 0 } : ClockState).micros ≤
      (generate_event sampleConfig samplePool 1 { micros := 0, hour := 0 }
        sampleTape).1.micros ∧
     ({ micros := 0, hour := 0 } : ClockState).hour ≤
      (generate_event sampleConfig samplePool 1 { micros := 0, hour := 0 }
        sampleTape).1.hour) :=
  ⟨by norm_num [sampleTape],
   c8_clock_monotonic sampleConfig samplePool 1 { micros := 0, hour := 0 }
     sampleTape (by norm_num [sampleTape])⟩

/-- C6: every successfully produced event record satisfies the event-type
payload rules: a search carries a search query, a review_submit carries an
integer rating in [1, 5], an in_app_purchase carries an item id of the form
iap_ followed by an integer in [100, 999] and a price in [0.99, 99.99] that
is a whole number of cents, and every other event type carries the empty
details object. -/
theorem c6_event_payload_rules (cfg : Config)
    (usersByCountry : List (String × List String)) (rateMax : ℚ)
    (clock : ClockState) (t : GenTape) (ev : EventRecord)
    (hu0 : 0 ≤ t.uPrice) (hu1 : t.uPrice ≤ 1)
    (h : (generate_event cfg usersByCountry rateMax clock t).2 = .ok (some ev)) :
    (ev.event_type = "search" → ∃ q, ev.event_details = .search q) ∧
    (ev.event_type = "review_submit" →
      ∃ r : ℤ, ev.event_details = .review r ∧ 1 ≤ r ∧ r ≤ 5) ∧
    (ev.event_type = "in_app_purchase" → ∃ (n : ℤ) (p : ℚ),
      ev.event_details = .purchase ("iap_" ++ toString n) p ∧ 100 ≤ n ∧ n ≤ 999 ∧
      0.99 ≤ p ∧ p ≤ 99.99 ∧ ∃ m : ℤ, p = (m:ℚ)/100) ∧
    (ev.event_type ≠ "search" → ev.event_type ≠ "review_submit" →
      ev.event_type ≠ "in_app_purchase" → ev.event_details = .empty) := by
  have hlink := generate_event_details_link cfg usersByCountry rateMax clock t ev h
  rw [hlink]
  unfold build_event_details
  refine ⟨?_, ?_, ?_, ?_⟩
  · intro he
    rw [if_pos he]
    exact ⟨t.searchQuery, rfl⟩
  · intro he
    have hne1 : ev.event_type ≠ "search" := by
      rw [he]
      decide
    rw [if_neg hne1, if_pos he]
    obtain ⟨hr1, hr2⟩ := AppStore.pyRandint_mem 1 5 t.rRating (by norm_num)
    exact ⟨AppStore.pyRandint 1 5 t.rRating, rfl, hr1, hr2⟩
  · intro he
    have hne1 : ev.event_type ≠ "search" := by
      rw [he]
      decide
    have hne2 : ev.event_type ≠ "review_submit" := by
      rw [he]
      decide
    rw [if_neg hne1, if_neg hne2, if_pos he]
    obtain ⟨hn1, hn2⟩ := AppStore.pyRandint_mem 100 999 t.rItem (by norm_num)
    have hu : 0.99 ≤ AppStore.pyUniform 0.99 99.99 t.uPrice ∧
        AppStore.pyUniform 0.99 99.99 t.uPrice ≤ 99.99 := by
      unfold AppStore.pyUniform
      constructor
      · nlinarith
      · nlinarith
    obtain ⟨hp1, hp2⟩ := AppStore.round2_price_bounds _ hu.1 hu.2
    obtain ⟨m, hm⟩ := AppStore.round2_centi (AppStore.pyUniform 0.99 99.99 t.uPrice)
    exact ⟨AppStore.pyRandint 100 999 t.rItem, _, rfl, hn1, hn2, hp1, hp2, m, hm⟩
  · intro h1 h2 h3
    rw [if_neg h1, if_neg h2, if_neg h3]

/-- The event record produced by the concrete witness run. -/
def sampleEvent : EventRecord :=
  { generation_timestamp := 0
    event_id := "e"
    event_timestamp := 0
    user_id := "user0"
    session_id := "s"
    event_type := "in_app_purchase"
    app_id := "app_1000"
    device_type := "phone"
    os_version := "iOS 12.0"
    country_code := "US"
    event_details := .purchase ("iap_100") 0.99 }

/-- The concrete witness run accepts the arrival and produces sampleEvent. -/
lemma sample_run :
    (generate_event sampleConfig samplePool 1 { micros := 0, hour := 0 }
      sampleTape).2 = .ok (some sampleEvent) := by
  have hpat : user_daily_activity_pattern 0 = 0.272 := by
    have hidx : patternIndex 0 = 0 := by
      norm_num [patternIndex, AppStore.pyInt, AppStore.pyMod]
    rw [user_daily_activity_pattern, hidx]
    rfl
  have hround : AppStore.round2 0 = 0 := by
    norm_num [AppStore.round2]
  have hadv : advanceClock { micros := 0, hour := 0 } sampleTape.expDraw =
      { micros := 0, hour := 0 } := by
    simp [advanceClock, sampleTape, AppStore.pyInt]
  have hg : generate_time_modulated_weights (0:ℚ) [("US", 1)] [("US", 0)]
      [("US", 0)] = .ok ([("US", 0.272)], 0.272) := by
    rw [generate_time_modulated_weights, hround]
    simp [gtmwGo, AppStore.alookup, AppStore.aset, hpat]
  have hcw : get_weighted_choice [("US", 0.272)] sampleTape.uCountry = .ok ("US") := by
    simp [sampleTape, get_weighted_choice, totalWeight, pickCum]
    norm_num
  have het : get_weighted_choice sampleConfig.eventTypeDistribution
      sampleTape.uEventType = .ok ("in_app_purchase") := by
    simp [sampleConfig, sampleTape, get_weighted_choice, totalWeight, pickCum]
  have hdev : get_weighted_choice sampleConfig.deviceTypeDistribution
      sampleTape.uDevice = .ok ("phone") := by
    simp [sampleConfig, sampleTape, get_weighted_choice, totalWeight, pickCum]
  have hdet : build_event_details ("in_app_purchase") sampleTape =
      .purchase ("iap_100") 0.99 := by
    rw [build_event_details,
      if_neg (show ¬("in_app_purchase" = "search") from by decide),
      if_neg (show ¬("in_app_purchase" = "review_submit") from by decide),
      if_pos (show ("in_app_purchase") = "in_app_purchase" from rfl)]
    rw [show ("iap_" ++ toString (AppStore.pyRandint 100 999 sampleTape.rItem)) =
      "iap_100" from rfl]
    rw [show AppStore.pyUniform 0.99 99.99 sampleTape.uPrice = 0.99 from by
      norm_num [AppStore.pyUniform, sampleTape]]
    rw [show AppStore.round2 0.99 = 0.99 from by norm_num [AppStore.round2]]
  have hsamp : sampleAccepted sampleConfig samplePool { micros := 0, hour := 0 }
      [("US", 0.272)] sampleTape = .ok sampleEvent := by
    rw [sampleAccepted]
    simp only [hcw]
    simp only [show AppStore.alookup samplePool ("US") = some ["user0"] from rfl]
    simp only [show randomChoice ["user0"] sampleTape.rUser = Except.ok ("user0") from rfl]
    simp only [het, hdev, hdet]
    rfl
  rw [generate_event, hadv]
  simp only [show sampleConfig.countryDistribution = [("US", 1)] from rfl,
    show sampleConfig.countryTimezone = [("US", 0)] from rfl,
    show sampleConfig.modulatedPrior = [("US", 0)] from rfl,
    show ({ micros := 0, hour := 0 } : ClockState).hour = (0:ℚ) from rfl, hg]
  rw [if_neg (by norm_num [sampleTape] : ¬((0.272:ℚ)/1 < sampleTape.uThin))]
  simp only [hsamp]

/-- C6 witness: the payload rules instantiated on the record produced by the
concrete witness run, which is an in-app purchase carrying item iap_100 at
price 0.99. -/
theorem c6_witness :
    (0:ℚ) ≤ sampleTape.uPrice ∧ sampleTape.uPrice ≤ 1 ∧
    ((sampleEvent.event_type = "search" →
      ∃ q, sampleEvent.event_details = .search q) ∧
     (sampleEvent.event_type = "review_submit" →
      ∃ r : ℤ, sampleEvent.event_details = .review r ∧ 1 ≤ r ∧ r ≤ 5) ∧
     (sampleEvent.event_type = "in_app_purchase" → ∃ (n : ℤ) (p : ℚ),
      sampleEvent.event_details = .purchase ("iap_" ++ toString n) p ∧
      100 ≤ n ∧ n ≤ 999 ∧ 0.99 ≤ p ∧ p ≤ 99.99 ∧ ∃ m : ℤ, p = (m:ℚ)/100) ∧
     (sampleEvent.event_type ≠ "search" →
      sampleEvent.event_type ≠ "review_submit" →
      sampleEvent.event_type ≠ "in_app_purchase" →
      sampleEvent.event_details = .empty)) :=
  ⟨by norm_num [sampleTape], by norm_num [sampleTape],
   c6_event_payload_rules sampleConfig samplePool 1 { micros := 0, hour := 0 }
     sampleTape sampleEvent (by norm_num [sampleTape]) (by norm_num [sampleTape])
     sample_run⟩

/-- C2 (amended): for every hour h in [0, 24), the continuous diurnal
modulator 0.03 + 0.97 (1 + cos((h - 16) 2 pi / 24)) / 2 and the discretized
120-entry lookup table indexed by floor((h mod 24) * 5) agree within plus or
minus 0.03; the 0.01 tolerance of the original claim fails because the curve
drifts up to about 0.025 across one 12-minute bucket in its steep regions. -/
theorem c2_diurnal_agreement (h : ℝ) (h0 : 0 ≤ h) (h24 : h < 24) :
    |V02.user_daily_activity_pattern h - V05.user_daily_activity_pattern_real h| ≤ 0.03 :=
  Diurnal.diurnal_agreement h h0 h24

/-- C2 witness: the agreement bound at hour 16, the peak of the curve. -/
theorem c2_witness :
    (0:ℝ) ≤ 16 ∧ (16:ℝ) < 24 ∧
    |V02.user_daily_activity_pattern 16 - V05.user_daily_activity_pattern_real 16| ≤ 0.03 :=
  ⟨by norm_num, by norm_num, c2_diurnal_agreement 16 (by norm_num) (by norm_num)⟩

/-- C2 counterexample: at hour 10.199 the lookup index is 50, the table reads
0.515, while the continuous curve is above 0.540, so the two variants differ
by more than 0.01 inside [0, 24). -/
theorem c2_agreement_counterexample :
    (0:ℝ) ≤ 10.199 ∧ (10.199:ℝ) < 24 ∧
    ¬(|V02.user_daily_activity_pattern 10.199 -
        V05.user_daily_activity_pattern_real 10.199| ≤ 0.01) := by
  refine ⟨by norm_num, by norm_num, ?_⟩
  have hfl : ⌊(10.199:ℝ)/24⌋ = 0 := by
    rw [Int.floor_eq_zero_iff]
    constructor
    · norm_num
    · show (10.199:ℝ)/24 < 1
      norm_num
  have hidx : AppStore.pyIntR (AppStore.pyModR 10.199 24 * 5) = 50 := by
    unfold AppStore.pyModR AppStore.pyIntR
    rw [hfl]
    rw [if_pos (by norm_num : (0:ℝ) ≤ ((10.199:ℝ) - 24*((0:ℤ):ℝ))*5)]
    norm_num
  have hdisc : V05.user_daily_activity_pattern_real 10.199 = ((0.515:ℚ):ℝ) := by
    unfold V05.user_daily_activity_pattern_real
    rw [hidx]
    rw [show (V05.HOURLY_MODULATION_FACTORS.getD (50:ℤ).toNat 0 : ℚ) = 0.515 from rfl]
  have hcos : V02.user_daily_activity_pattern 10.199 =
      0.03 + 0.97 * (1 + Real.sin (0.199*Real.pi/12))/2 := by
    unfold V02.user_daily_activity_pattern
    rw [show ((10.199:ℝ) - 16) * (2*Real.pi/24) =
      -(Real.pi/2 - 0.199*Real.pi/12) from by ring]
    rw [Real.cos_neg, Real.cos_pi_div_two_sub]
  have hsin : (0.052:ℝ) ≤ Real.sin (0.199*Real.pi/12) := by
    have hpiL := Real.pi_gt_d6
    have hpiH := Real.pi_lt_d6
    obtain ⟨hl, _⟩ := Diurnal.sin_mem (0.199*Real.pi/12)
      (199 * Diurnal.piQLo / 12000) (199 * Diurnal.piQHi / 12000)
      (by push_cast [Diurnal.piQLo]; nlinarith)
      (by push_cast [Diurnal.piQHi]; nlinarith)
      (by norm_num [Diurnal.piQLo])
      (by norm_num [Diurnal.piQHi])
    refine le_trans ?_ hl
    push_cast [Diurnal.sinPolyLo, Diurnal.piQLo, Diurnal.piQHi]
    norm_num
  intro habs
  rw [hdisc, hcos, abs_le] at habs
  have h2 := habs.2
  push_cast at h2
  nlinarith [hsin, h2]

end Claims
